import Mathlib

/-!
Verification development for the Cajun Catan rule engine.

The definitions below are a shallow embedding of the TypeScript rule engine
(`rule-engine/src`): board generator, resource / building / trading /
development-card / robber / victory managers, and the orchestrating
`CatanRuleEngine`.  Conventions of the embedding:

* JavaScript `Map`s are association lists in insertion order; `Map.set`
  updates an existing key in place (keeping its position) and otherwise
  appends, `Map.get` is a linear lookup.
* The string keys of the source (`"q,r"` for tiles, `"i_q,r"` for
  intersections, `"e_k1_k2"` for edges) are in bijection with the
  coordinates they print, so the embedding uses the coordinates themselves
  as keys.  Edge ids are canonicalized unordered pairs; the source orders
  the two endpoint keys by string comparison, the embedding by the
  lexicographic order on (q, r).  Both produce one fixed representative per
  unordered pair, which is all the source ever relies on.
* Exceptions are `Except String`; functions that the source lets throw a
  `TypeError` (indexing `players[i]` out of range and then dereferencing)
  return an error marked "TypeError" at the corresponding point.
* `Math.random()` draws are explicit oracle inputs: dice are given as two
  naturals (taken mod 6), the deck shuffle as a function giving the swap
  index for each loop bound, and theft as a natural (taken mod the number
  of stealable cards).
* Quantities that JavaScript holds in `number` are `Int` where the code can
  drive them below zero (resource counters before clamping, victory
  points) and `Nat` where it cannot (indices, turn counter, card counts).
-/

/-! ## Basic data model (rule-engine/src/types/index.ts) -/

inductive ResourceType where
  | wood | brick | wool | wheat | ore
deriving DecidableEq

inductive TerrainType where
  | forest | pasture | field | hill | mountain | desert
deriving DecidableEq

inductive DevelopmentCardType where
  | knight | roadBuilding | invention | monopoly | victoryPoint
deriving DecidableEq

inductive GamePhase where
  | SETUP_ROUND_1 | SETUP_ROUND_2 | PRODUCTION | ACTION | GAME_OVER
deriving DecidableEq

structure HexCoordinate where
  q : Int
  r : Int
deriving DecidableEq

/-- Intersection ids (`i_q,r` in the source) are in bijection with the
intersection coordinates, so the embedding uses the coordinate itself. -/
abbrev IKey := HexCoordinate

/-- Edge ids (`e_k1_k2` in the source) are canonical ordered pairs of the two
endpoint intersection coordinates. -/
abbrev EdgeId := HexCoordinate × HexCoordinate

structure BuildingOcc where
  type : Bool        -- `true` = city, `false` = settlement (source: string tag)
  playerId : String
deriving DecidableEq

/-- Building tag helpers mirroring the source's 'settlement' / 'city' strings. -/
def BuildingOcc.isCity (b : BuildingOcc) : Bool := b.type

def BuildingOcc.settlement (pid : String) : BuildingOcc := ⟨false, pid⟩

def BuildingOcc.city (pid : String) : BuildingOcc := ⟨true, pid⟩

structure Port where
  type : Option ResourceType   -- `none` = 'generic', `some rt` = specific port
  ratio : Int
deriving DecidableEq

structure Intersection where
  id : IKey
  hexes : List HexCoordinate
  edges : List EdgeId
  building : Option BuildingOcc
  port : Option Port
deriving DecidableEq

structure Edge where
  id : EdgeId
  intersections : IKey × IKey
  road : Option String         -- road occupancy: `some playerId`
deriving DecidableEq

structure Tile where
  coordinate : HexCoordinate
  terrain : TerrainType
  numberDisc : Option Nat
  hasRobber : Bool
deriving DecidableEq

structure Resources where
  wood : Int
  brick : Int
  wool : Int
  wheat : Int
  ore : Int
deriving DecidableEq

structure DevelopmentCards where
  knight : Nat
  roadBuilding : Nat
  invention : Nat
  monopoly : Nat
  victoryPoint : Nat
deriving DecidableEq

structure PlayerBuildings where
  roads : List EdgeId
  settlements : List IKey
  cities : List IKey
deriving DecidableEq

structure SpecialCards where
  longestRoad : Bool
  largestArmy : Bool
deriving DecidableEq

structure Player where
  id : String
  color : String
  resources : Resources
  developmentCards : DevelopmentCards
  buildings : PlayerBuildings
  specialCards : SpecialCards
  knightsPlayed : Nat
  victoryPoints : Int
  canPlayDevCard : Bool
deriving DecidableEq

structure GameBoard where
  tiles : List (HexCoordinate × Tile)
  intersections : List (IKey × Intersection)
  edges : List (EdgeId × Edge)
  robberLocation : HexCoordinate
deriving DecidableEq

structure GameState where
  id : String
  phase : GamePhase
  currentPlayerIndex : Nat
  players : List Player
  board : GameBoard
  developmentCardDeck : List DevelopmentCardType
  diceRoll : Option (Nat × Nat)
  turn : Nat
  winner : Option String
deriving DecidableEq

structure TradeOffer where
  offering : Resources        -- Partial<Resources>: absent keys are zero
  requesting : Resources
  fromPlayerId : String
  toPlayerId : Option String  -- `none` for bank trades
deriving DecidableEq

/-- Validation results of the source's can-queries. -/
structure Validation where
  valid : Bool
  error : Option String
deriving DecidableEq

def Validation.ok : Validation := ⟨true, none⟩

def Validation.fail (e : String) : Validation := ⟨false, some e⟩

structure BuildingCost where
  wood : Int
  brick : Int
  wool : Int
  wheat : Int
  ore : Int
deriving DecidableEq

def BuildingCost.toResources (c : BuildingCost) : Resources :=
  ⟨c.wood, c.brick, c.wool, c.wheat, c.ore⟩

def BUILDING_COSTS_road : Resources := ⟨1, 1, 0, 0, 0⟩

def BUILDING_COSTS_settlement : Resources := ⟨1, 1, 1, 1, 0⟩

def BUILDING_COSTS_city : Resources := ⟨0, 0, 0, 2, 3⟩

def BUILDING_COSTS_developmentCard : Resources := ⟨0, 0, 1, 1, 1⟩

/-- Result type of `processAction` (`GameResult` in the source). -/
inductive GameResult where
  | success (newState : GameState)
  | failure (error : String)
deriving DecidableEq

def GameResult.isSuccess : GameResult → Bool
  | .success _ => true
  | .failure _ => false

def GameResult.isFailure : GameResult → Bool
  | .success _ => false
  | .failure _ => true

def GameResult.state? : GameResult → Option GameState
  | .success s => some s
  | .failure _ => none

/-- Explicit oracle for the source's ambient `Math.random()` draws consumed by
a single action: the two dice values and the theft draw. -/
structure Oracle where
  die1 : Nat
  die2 : Nat
  steal : Nat
deriving DecidableEq

/-! ## Association lists with JavaScript `Map` semantics -/

def alistGet [DecidableEq κ] (k : κ) (l : List (κ × α)) : Option α :=
  (l.find? (fun p => p.1 = k)).map (fun p => p.2)

def alistHas [DecidableEq κ] (k : κ) (l : List (κ × α)) : Bool :=
  (alistGet k l).isSome

/-- `Map.set`: update in place if the key is present, else append. -/
def alistSet [DecidableEq κ] (k : κ) (v : α) : List (κ × α) → List (κ × α)
  | [] => [(k, v)]
  | (k0, v0) :: rest =>
      if k0 = k then (k0, v) :: rest else (k0, v0) :: alistSet k v rest

/-- Mutate the value at a key in place; no-op when the key is absent
(the source guards such writes with an `if`). -/
def alistModify [DecidableEq κ] (k : κ) (f : α → α) : List (κ × α) → List (κ × α)
  | [] => []
  | (k0, v0) :: rest =>
      if k0 = k then (k0, f v0) :: rest else (k0, v0) :: alistModify k f rest

def alistValues (l : List (κ × α)) : List α := l.map (fun p => p.2)

def alistKeys (l : List (κ × α)) : List κ := l.map (fun p => p.1)

/-- In-place update of a list element (`xs[i] = f xs[i]`); no-op out of range. -/
def listModify (i : Nat) (f : α → α) : List α → List α
  | [] => []
  | x :: xs =>
      match i with
      | 0 => f x :: xs
      | n + 1 => x :: listModify n f xs

/-- `Array.prototype` swap of two positions, used by the deck shuffle. -/
def listSwap (l : List α) (i j : Nat) : List α :=
  match l.get? i, l.get? j with
  | some a, some b => (l.set i b).set j a
  | _, _ => l

/-- Remove the last element (`Array.prototype.pop`). -/
def listPopLast (l : List α) : Option (α × List α) :=
  match l.getLast? with
  | none => none
  | some x => some (x, l.dropLast)

/-! ## Board topology generator (rule-engine/src/board.ts) -/

namespace BoardGenerator

/-- Six intersection coordinates of a hex, from the top clockwise. -/
def getHexIntersections (coord : HexCoordinate) : List HexCoordinate :=
  [ ⟨coord.q, coord.r - 1⟩
  , ⟨coord.q + 1, coord.r - 1⟩
  , ⟨coord.q + 1, coord.r⟩
  , ⟨coord.q, coord.r + 1⟩
  , ⟨coord.q - 1, coord.r + 1⟩
  , ⟨coord.q - 1, coord.r⟩ ]

/-- The three hex candidates the source checks around an intersection. -/
def getAdjacentHexes (coord : HexCoordinate)
    (tiles : List (HexCoordinate × Tile)) : List HexCoordinate :=
  [ ⟨coord.q, coord.r⟩
  , ⟨coord.q, coord.r + 1⟩
  , ⟨coord.q - 1, coord.r + 1⟩ ].filter (fun c => alistHas c tiles)

/-- Lexicographic order on coordinates, the embedding's canonical order for
edge endpoints (the source compares the rendered string keys; either order
yields one fixed representative per unordered pair). -/
def hexLt (a b : HexCoordinate) : Bool :=
  a.q < b.q || (a.q = b.q && a.r < b.r)

def createEdgeId (c1 c2 : HexCoordinate) : EdgeId :=
  if hexLt c1 c2 then (c1, c2) else (c2, c1)

/-- The three edges the source attaches to an intersection. -/
def getIntersectionEdges (coord : HexCoordinate) : List EdgeId :=
  [ createEdgeId coord ⟨coord.q + 1, coord.r - 1⟩
  , createEdgeId coord ⟨coord.q + 1, coord.r⟩
  , createEdgeId coord ⟨coord.q, coord.r + 1⟩ ]

/-- An edge id already carries its two endpoint intersection keys. -/
def parseEdgeId (e : EdgeId) : IKey × IKey := e

def getPortForIntersection (coord : HexCoordinate) : Option Port :=
  let portLocations : List (HexCoordinate × Port) :=
    [ (⟨-2, 0⟩, ⟨none, 3⟩)
    , (⟨2, -1⟩, ⟨none, 3⟩)
    , (⟨1, 1⟩, ⟨none, 3⟩)
    , (⟨-1, 2⟩, ⟨none, 3⟩)
    , (⟨0, -2⟩, ⟨some .ore, 2⟩)
    , (⟨2, 0⟩, ⟨some .wheat, 2⟩)
    , (⟨1, -2⟩, ⟨some .wood, 2⟩)
    , (⟨0, 2⟩, ⟨some .brick, 2⟩)
    , (⟨-2, 1⟩, ⟨some .wool, 2⟩) ]
  ((portLocations.find? (fun p => p.1 = coord)).map (fun p => p.2))

def standardTerrainLayout : List (HexCoordinate × TerrainType × Option Nat) :=
  [ (⟨0, 0⟩, .desert, none)
  , (⟨1, 0⟩, .pasture, some 9)
  , (⟨0, 1⟩, .field, some 12)
  , (⟨-1, 1⟩, .forest, some 6)
  , (⟨-1, 0⟩, .hill, some 4)
  , (⟨0, -1⟩, .mountain, some 10)
  , (⟨1, -1⟩, .hill, some 5)
  , (⟨2, 0⟩, .forest, some 11)
  , (⟨1, 1⟩, .field, some 3)
  , (⟨0, 2⟩, .pasture, some 8)
  , (⟨-1, 2⟩, .hill, some 8)
  , (⟨-2, 2⟩, .mountain, some 3)
  , (⟨-2, 1⟩, .forest, some 4)
  , (⟨-2, 0⟩, .pasture, some 2)
  , (⟨-1, -1⟩, .field, some 6)
  , (⟨0, -2⟩, .mountain, some 11)
  , (⟨1, -2⟩, .forest, some 9)
  , (⟨2, -2⟩, .pasture, some 5)
  , (⟨2, -1⟩, .field, some 10) ]

def createStandardTiles : List (HexCoordinate × Tile) :=
  standardTerrainLayout.foldl
    (fun tiles entry =>
      alistSet entry.1
        { coordinate := entry.1
        , terrain := entry.2.1
        , numberDisc := entry.2.2
        , hasRobber := entry.2.1 = TerrainType.desert } tiles)
    []

def createIntersections (tiles : List (HexCoordinate × Tile)) :
    List (IKey × Intersection) :=
  (alistValues tiles).foldl
    (fun inters tile =>
      (getHexIntersections tile.coordinate).foldl
        (fun inters coord =>
          if alistHas coord inters then inters
          else
            alistSet coord
              { id := coord
              , hexes := getAdjacentHexes coord tiles
              , edges := getIntersectionEdges coord
              , building := none
              , port := getPortForIntersection coord } inters)
        inters)
    []

def createEdges (inters : List (IKey × Intersection)) : List (EdgeId × Edge) :=
  (alistValues inters).foldl
    (fun edges inter =>
      inter.edges.foldl
        (fun edges edgeId =>
          if alistHas edgeId edges then edges
          else
            alistSet edgeId
              { id := edgeId
              , intersections := parseEdgeId edgeId
              , road := none } edges)
        edges)
    []

def generateStandardBoard : GameBoard :=
  let tiles := createStandardTiles
  let inters := createIntersections tiles
  let edges := createEdges inters
  { tiles := tiles
  , intersections := inters
  , edges := edges
  , robberLocation := ⟨0, 0⟩ }

end BoardGenerator

/-! ## Resource subsystem (rule-engine/src/resources.ts) -/

namespace ResourceManager

/-- `rollDice`: two `Math.random()` draws, modelled by the oracle's naturals
taken mod 6 (`Math.floor(Math.random()*6)+1`). -/
def rollDice (o : Oracle) : Nat × Nat := (o.die1 % 6 + 1, o.die2 % 6 + 1)

def getTotalResources (r : Resources) : Int :=
  r.wood + r.brick + r.wool + r.wheat + r.ore

def hasResources (playerResources : Resources) (required : Resources) : Bool :=
  playerResources.wood ≥ required.wood &&
  playerResources.brick ≥ required.brick &&
  playerResources.wool ≥ required.wool &&
  playerResources.wheat ≥ required.wheat &&
  playerResources.ore ≥ required.ore

/-- Per-resource subtraction clamped at zero (`Math.max(0, x - amount)`),
applied only to positive amounts like the source's `amount > 0` guard. -/
def subtractResources (playerResources : Resources) (toSubtract : Resources) :
    Resources :=
  let sub := fun (x a : Int) => if a > 0 then max 0 (x - a) else x
  { wood := sub playerResources.wood toSubtract.wood
  , brick := sub playerResources.brick toSubtract.brick
  , wool := sub playerResources.wool toSubtract.wool
  , wheat := sub playerResources.wheat toSubtract.wheat
  , ore := sub playerResources.ore toSubtract.ore }

def addResources (playerResources : Resources) (toAdd : Resources) : Resources :=
  let add := fun (x a : Int) => if a > 0 then x + a else x
  { wood := add playerResources.wood toAdd.wood
  , brick := add playerResources.brick toAdd.brick
  , wool := add playerResources.wool toAdd.wool
  , wheat := add playerResources.wheat toAdd.wheat
  , ore := add playerResources.ore toAdd.ore }

def createEmptyResources : Resources := ⟨0, 0, 0, 0, 0⟩

/-- Terrain-to-resource mapping; the desert case (where the source throws) is
`none` and every caller skips desert before consulting it. -/
def terrainToResource : TerrainType → Option ResourceType
  | .forest => some .wood
  | .hill => some .brick
  | .pasture => some .wool
  | .field => some .wheat
  | .mountain => some .ore
  | .desert => none

/-- Add `amount` units of one resource kind (the source's
`resources[resourceType] += resourceAmount`). -/
def addOne (r : Resources) (rt : ResourceType) (amount : Int) : Resources :=
  match rt with
  | .wood => { r with wood := r.wood + amount }
  | .brick => { r with brick := r.brick + amount }
  | .wool => { r with wool := r.wool + amount }
  | .wheat => { r with wheat := r.wheat + amount }
  | .ore => { r with ore := r.ore + amount }

def getOne (r : Resources) (rt : ResourceType) : Int :=
  match rt with
  | .wood => r.wood
  | .brick => r.brick
  | .wool => r.wool
  | .wheat => r.wheat
  | .ore => r.ore

/-- `handleSevenRolled` (private helper of `distributeResources`): maps the
player list, spreading players over the discard threshold into fresh objects
with identical fields — a value-level identity. -/
def handleSevenRolled (gameState : GameState) : GameState :=
  { gameState with
    players := gameState.players.map (fun player =>
      if getTotalResources player.resources > 7 then player else player) }

/-- One crediting step of `distributeResources`: an intersection adjacent to a
producing tile with a building credits its owner 1 (settlement) or 2 (city). -/
def creditIntersection (tileCoord : HexCoordinate) (resourceType : ResourceType)
    (players : List Player) (inter : Intersection) : List Player :=
  let isAdjacent := inter.hexes.any (fun h => h.q = tileCoord.q && h.r = tileCoord.r)
  match inter.building with
  | some b =>
      if isAdjacent then
        match players.findIdx? (fun p => p.id = b.playerId) with
        | some playerIndex =>
            let resourceAmount : Int := if b.isCity then 2 else 1
            listModify playerIndex
              (fun p => { p with resources := addOne p.resources resourceType resourceAmount })
              players
        | none => players
      else players
  | none => players

/-- Credit every building adjacent to one producing tile. -/
def creditTile (gameState : GameState) (players : List Player)
    (tileCoord : HexCoordinate) : List Player :=
  match alistGet tileCoord gameState.board.tiles with
  | none => players
  | some tile =>
      if tile.terrain = TerrainType.desert then players
      else
        match ResourceManager.terrainToResource tile.terrain with
        | none => players
        | some resourceType =>
            (alistValues gameState.board.intersections).foldl
              (creditIntersection tileCoord resourceType) players

def distributeResources (gameState : GameState) (diceSum : Nat) : GameState :=
  if diceSum = 7 then handleSevenRolled gameState
  else
    let producingTiles :=
      (alistValues gameState.board.tiles).filterMap (fun tile =>
        if tile.numberDisc = some diceSum && !tile.hasRobber then
          some tile.coordinate
        else none)
    { gameState with
      players := producingTiles.foldl (creditTile gameState) gameState.players }

def validateDiscardSelection (currentResources : Resources)
    (toDiscard : Resources) (requiredAmount : Int) : Bool :=
  if !hasResources currentResources toDiscard then false
  else getTotalResources toDiscard = requiredAmount

def discardResources (gameState : GameState) (playerId : String)
    (toDiscard : Resources) : Except String GameState :=
  match gameState.players.findIdx? (fun p => p.id = playerId) with
  | none => Except.error ("Player not found")
  | some playerIndex =>
      match gameState.players.get? playerIndex with
      | none => Except.error ("TypeError")
      | some player =>
          let totalResources := getTotalResources player.resources
          if totalResources ≤ 7 then
            Except.error ("Player does not need to discard resources")
          else
            let requiredDiscard := totalResources / 2
            if !validateDiscardSelection player.resources toDiscard requiredDiscard then
              Except.error ("Invalid discard selection")
            else
              Except.ok { gameState with
                players := listModify playerIndex
                  (fun p => { p with resources := subtractResources player.resources toDiscard })
                  gameState.players }

/-- The victim's hand enumerated as individual unit cards, in the field order
of `Object.entries` on a resource record. -/
def availableResourceCards (r : Resources) : List ResourceType :=
  List.replicate r.wood.toNat ResourceType.wood ++
  List.replicate r.brick.toNat ResourceType.brick ++
  List.replicate r.wool.toNat ResourceType.wool ++
  List.replicate r.wheat.toNat ResourceType.wheat ++
  List.replicate r.ore.toNat ResourceType.ore

def stealRandomResource (o : Oracle) (fromPlayerId toPlayerId : String)
    (gameState : GameState) : Except String GameState :=
  match gameState.players.findIdx? (fun p => p.id = fromPlayerId),
        gameState.players.findIdx? (fun p => p.id = toPlayerId) with
  | some fromPlayerIndex, some toPlayerIndex =>
      match gameState.players.get? fromPlayerIndex with
      | none => Except.error ("TypeError")
      | some fromPlayer =>
          let availableResources := availableResourceCards fromPlayer.resources
          if availableResources.isEmpty then Except.ok gameState
          else
            let randomIndex := o.steal % availableResources.length
            match availableResources.get? randomIndex with
            | none => Except.error ("TypeError")
            | some stolenResource =>
                Except.ok { gameState with
                  players :=
                    listModify toPlayerIndex
                      (fun p => { p with resources := addOne p.resources stolenResource 1 })
                      (listModify fromPlayerIndex
                        (fun p => { p with resources := addOne p.resources stolenResource (-1) })
                        gameState.players) }
  | _, _ => Except.error ("Invalid player IDs for stealing")

end ResourceManager

/-! ## Building subsystem (rule-engine/src/building.ts) -/

namespace BuildingManager

def isRoadConnected (gameState : GameState) (playerId : String)
    (edgeId : EdgeId) : Bool :=
  match alistGet edgeId gameState.board.edges with
  | none => false
  | some edge =>
      [edge.intersections.1, edge.intersections.2].any (fun intersectionId =>
        match alistGet intersectionId gameState.board.intersections with
        | none => false
        | some inter =>
            (match inter.building with
             | some b => b.playerId = playerId
             | none => false) ||
            inter.edges.any (fun connectedEdgeId =>
              if connectedEdgeId = edgeId then false
              else
                match alistGet connectedEdgeId gameState.board.edges with
                | some connectedEdge => connectedEdge.road = some playerId
                | none => false))

def isSettlementConnected (gameState : GameState) (playerId : String)
    (intersectionId : IKey) : Bool :=
  match alistGet intersectionId gameState.board.intersections with
  | none => false
  | some inter =>
      inter.edges.any (fun edgeId =>
        match alistGet edgeId gameState.board.edges with
        | some edge => edge.road = some playerId
        | none => false)

def checkDistanceRule (gameState : GameState) (intersectionId : IKey) :
    Validation :=
  match alistGet intersectionId gameState.board.intersections with
  | none => Validation.fail ("Invalid intersection")
  | some inter =>
      if inter.edges.any (fun edgeId =>
           match alistGet edgeId gameState.board.edges with
           | none => false
           | some edge =>
               match [edge.intersections.1, edge.intersections.2].find?
                       (fun i => i ≠ intersectionId) with
               | none => false
               | some otherIntersectionId =>
                   match alistGet otherIntersectionId gameState.board.intersections with
                   | some otherInter => otherInter.building.isSome
                   | none => false)
      then Validation.fail
        ("Cannot place settlement adjacent to another building (distance rule)")
      else Validation.ok

def canBuildRoad (gameState : GameState) (playerId : String) (edgeId : EdgeId) :
    Validation :=
  match gameState.players.find? (fun p => p.id = playerId) with
  | none => Validation.fail ("Player not found")
  | some player =>
      if (gameState.phase ≠ GamePhase.SETUP_ROUND_1 &&
          gameState.phase ≠ GamePhase.SETUP_ROUND_2) &&
         !ResourceManager.hasResources player.resources BUILDING_COSTS_road then
        Validation.fail ("Insufficient resources for road")
      else
        match alistGet edgeId gameState.board.edges with
        | none => Validation.fail ("Invalid edge location")
        | some edge =>
            if edge.road.isSome then
              Validation.fail ("Edge already has a road")
            else if !isRoadConnected gameState playerId edgeId then
              Validation.fail ("Road must connect to existing road or building")
            else Validation.ok

def canBuildSettlement (gameState : GameState) (playerId : String)
    (intersectionId : IKey) : Validation :=
  match gameState.players.find? (fun p => p.id = playerId) with
  | none => Validation.fail ("Player not found")
  | some player =>
      if (gameState.phase ≠ GamePhase.SETUP_ROUND_1 &&
          gameState.phase ≠ GamePhase.SETUP_ROUND_2) &&
         !ResourceManager.hasResources player.resources BUILDING_COSTS_settlement then
        Validation.fail ("Insufficient resources for settlement")
      else
        match alistGet intersectionId gameState.board.intersections with
        | none => Validation.fail ("Invalid intersection location")
        | some inter =>
            if inter.building.isSome then
              Validation.fail ("Intersection already has a building")
            else
              let distanceValid := checkDistanceRule gameState intersectionId
              if !distanceValid.valid then distanceValid
              else if gameState.phase = GamePhase.SETUP_ROUND_1 ||
                      gameState.phase = GamePhase.SETUP_ROUND_2 then
                Validation.ok
              else if !isSettlementConnected gameState playerId intersectionId then
                Validation.fail ("Settlement must connect to your road")
              else Validation.ok

def canBuildCity (gameState : GameState) (playerId : String)
    (intersectionId : IKey) : Validation :=
  match gameState.players.find? (fun p => p.id = playerId) with
  | none => Validation.fail ("Player not found")
  | some player =>
      if !ResourceManager.hasResources player.resources BUILDING_COSTS_city then
        Validation.fail ("Insufficient resources for city")
      else
        match alistGet intersectionId gameState.board.intersections with
        | none => Validation.fail ("Invalid intersection location")
        | some inter =>
            match inter.building with
            | some b =>
                if !b.isCity && b.playerId = playerId then Validation.ok
                else Validation.fail ("Can only upgrade your own settlements to cities")
            | none => Validation.fail ("Can only upgrade your own settlements to cities")

def buildRoad (gameState : GameState) (playerId : String) (edgeId : EdgeId) :
    Except String GameState :=
  let validation := canBuildRoad gameState playerId edgeId
  if !validation.valid then Except.error (validation.error.getD ("Unknown error"))
  else
    let playerIndex := (gameState.players.findIdx? (fun p => p.id = playerId)).getD
      gameState.players.length
    Except.ok
      { gameState with
        players :=
          listModify playerIndex
            (fun p =>
              { p with
                resources := ResourceManager.subtractResources p.resources BUILDING_COSTS_road
              , buildings := { p.buildings with roads := p.buildings.roads ++ [edgeId] } })
            gameState.players
      , board := { gameState.board with
          edges := alistModify edgeId (fun e => { e with road := some playerId })
            gameState.board.edges } }

def buildSettlement (gameState : GameState) (playerId : String)
    (intersectionId : IKey) : Except String GameState :=
  let validation := canBuildSettlement gameState playerId intersectionId
  if !validation.valid then Except.error (validation.error.getD ("Unknown error"))
  else
    let playerIndex := (gameState.players.findIdx? (fun p => p.id = playerId)).getD
      gameState.players.length
    let deduct := gameState.phase ≠ GamePhase.SETUP_ROUND_1 &&
                  gameState.phase ≠ GamePhase.SETUP_ROUND_2
    Except.ok
      { gameState with
        players :=
          listModify playerIndex
            (fun p =>
              { p with
                resources :=
                  if deduct then
                    ResourceManager.subtractResources p.resources BUILDING_COSTS_settlement
                  else p.resources
              , buildings := { p.buildings with
                  settlements := p.buildings.settlements ++ [intersectionId] }
              , victoryPoints := p.victoryPoints + 1 })
            gameState.players
      , board := { gameState.board with
          intersections :=
            alistModify intersectionId
              (fun i => { i with building := some (BuildingOcc.settlement playerId) })
              gameState.board.intersections } }

def buildCity (gameState : GameState) (playerId : String)
    (intersectionId : IKey) : Except String GameState :=
  let validation := canBuildCity gameState playerId intersectionId
  if !validation.valid then Except.error (validation.error.getD ("Unknown error"))
  else
    let playerIndex := (gameState.players.findIdx? (fun p => p.id = playerId)).getD
      gameState.players.length
    Except.ok
      { gameState with
        players :=
          listModify playerIndex
            (fun p =>
              { p with
                resources := ResourceManager.subtractResources p.resources BUILDING_COSTS_city
              , buildings := { p.buildings with
                  settlements := p.buildings.settlements.erase intersectionId
                , cities := p.buildings.cities ++ [intersectionId] }
              , victoryPoints := p.victoryPoints + 1 })
            gameState.players
      , board := { gameState.board with
          intersections :=
            alistModify intersectionId
              (fun i => { i with building := some (BuildingOcc.city playerId) })
              gameState.board.intersections } }

structure RemainingBuildings where
  roads : Int
  settlements : Int
  cities : Int

def getRemainingBuildings (player : Player) : RemainingBuildings :=
  { roads := 15 - (player.buildings.roads.length : Int)
  , settlements := 5 - (player.buildings.settlements.length : Int)
  , cities := 4 - (player.buildings.cities.length : Int) }

end BuildingManager

/-! ## Trading subsystem (rule-engine/src/trading.ts) -/

namespace TradingManager

/-- Ports reachable through the player's settlement and city ledgers. -/
def getAccessiblePorts (gameState : GameState) (playerId : String) : List Port :=
  match gameState.players.find? (fun p => p.id = playerId) with
  | none => []
  | some player =>
      (player.buildings.settlements ++ player.buildings.cities).foldl
        (fun accessiblePorts intersectionId =>
          match alistGet intersectionId gameState.board.intersections with
          | some inter =>
              match inter.port with
              | some port => accessiblePorts ++ [port]
              | none => accessiblePorts
          | none => accessiblePorts)
        []

def getBestTradeRatio (accessiblePorts : List Port) (resourceType : ResourceType) :
    Int :=
  let bestRatio : Int := 4
  let bestRatio :=
    match accessiblePorts.find? (fun port => port.type = some resourceType) with
    | some specificPort => min bestRatio specificPort.ratio
    | none => bestRatio
  (accessiblePorts.filter (fun port => port.type = none)).foldl
    (fun best port => min best port.ratio) bestRatio

/-- The positive entries of a `Partial<Resources>` in `Object.entries` order. -/
def positiveEntries (r : Resources) : List (ResourceType × Int) :=
  ([ (ResourceType.wood, r.wood)
   , (ResourceType.brick, r.brick)
   , (ResourceType.wool, r.wool)
   , (ResourceType.wheat, r.wheat)
   , (ResourceType.ore, r.ore) ]).filter (fun e => e.2 > 0)

def validateBankTrade (gameState : GameState) (offer : TradeOffer) : Validation :=
  match gameState.players.find? (fun p => p.id = offer.fromPlayerId) with
  | none => Validation.fail ("Player not found")
  | some player =>
      if !ResourceManager.hasResources player.resources offer.offering then
        Validation.fail ("Player does not have offered resources")
      else
        let accessiblePorts := getAccessiblePorts gameState offer.fromPlayerId
        let offeringTypes := positiveEntries offer.offering
        let requestingTypes := positiveEntries offer.requesting
        if offeringTypes.length ≠ 1 || requestingTypes.length ≠ 1 then
          Validation.fail ("Bank trades must be one resource type for one resource type")
        else
          match offeringTypes, requestingTypes with
          | [(offeringResource, offeringAmount)], [(_, requestingAmount)] =>
              let bestRatio := getBestTradeRatio accessiblePorts offeringResource
              if offeringAmount < bestRatio * requestingAmount then
                Validation.fail ("Invalid trade ratio")
              else Validation.ok
          | _, _ => Validation.fail ("Bank trades must be one resource type for one resource type")

def validatePlayerTrade (gameState : GameState) (offer : TradeOffer) : Validation :=
  match gameState.players.find? (fun p => p.id = offer.fromPlayerId) with
  | none => Validation.fail ("From player not found")
  | some fromPlayer =>
      let toPlayer := offer.toPlayerId.bind
        (fun tid => gameState.players.find? (fun p => p.id = tid))
      if offer.toPlayerId.isSome && toPlayer.isNone then
        Validation.fail ("To player not found")
      else if !ResourceManager.hasResources fromPlayer.resources offer.offering then
        Validation.fail ("Player does not have offered resources")
      else if offer.toPlayerId.isNone then
        validateBankTrade gameState offer
      else Validation.ok

def executeTrade (gameState : GameState) (offer : TradeOffer) :
    Except String GameState :=
  let validation := validatePlayerTrade gameState offer
  if !validation.valid then Except.error (validation.error.getD ("Unknown error"))
  else
    let fromPlayerIndex := (gameState.players.findIdx? (fun p => p.id = offer.fromPlayerId)).getD
      gameState.players.length
    let players :=
      listModify fromPlayerIndex
        (fun p =>
          let r1 := ResourceManager.subtractResources p.resources offer.offering
          { p with resources := ResourceManager.addResources r1 offer.requesting })
        gameState.players
    match offer.toPlayerId with
    | some toPlayerId =>
        let toPlayerIndex := (players.findIdx? (fun p => p.id = toPlayerId)).getD
          players.length
        let players2 :=
          listModify toPlayerIndex
            (fun p =>
              let r1 := ResourceManager.subtractResources p.resources offer.requesting
              { p with resources := ResourceManager.addResources r1 offer.offering })
            players
        Except.ok { gameState with players := players2 }
    | none => Except.ok { gameState with players := players }

end TradingManager

/-! ## Development card subsystem (rule-engine/src/development-cards.ts) -/

namespace DevelopmentCardManager

/-- The unshuffled 25-card deck in push order. -/
def baseDeck : List DevelopmentCardType :=
  List.replicate 14 DevelopmentCardType.knight ++
  List.replicate 5 DevelopmentCardType.victoryPoint ++
  List.replicate 2 DevelopmentCardType.roadBuilding ++
  List.replicate 2 DevelopmentCardType.invention ++
  List.replicate 2 DevelopmentCardType.monopoly

/-- Fisher-Yates shuffle with the random draw for each loop bound `i + 1`
supplied by `rand` (taken mod the bound, modelling
`Math.floor(Math.random() * (i + 1))`). -/
def createStandardDeck (rand : Nat → Nat) : List DevelopmentCardType :=
  ((List.range 24).reverse.map (fun k => k + 1)).foldl
    (fun deck i => listSwap deck i (rand (i + 1) % (i + 1)))
    baseDeck

instance : Inhabited DevelopmentCardType := ⟨DevelopmentCardType.knight⟩

def getCard (cards : DevelopmentCards) : DevelopmentCardType → Nat
  | .knight => cards.knight
  | .roadBuilding => cards.roadBuilding
  | .invention => cards.invention
  | .monopoly => cards.monopoly
  | .victoryPoint => cards.victoryPoint

def modifyCard (cards : DevelopmentCards) (cardType : DevelopmentCardType)
    (f : Nat → Nat) : DevelopmentCards :=
  match cardType with
  | .knight => { cards with knight := f cards.knight }
  | .roadBuilding => { cards with roadBuilding := f cards.roadBuilding }
  | .invention => { cards with invention := f cards.invention }
  | .monopoly => { cards with monopoly := f cards.monopoly }
  | .victoryPoint => { cards with victoryPoint := f cards.victoryPoint }

def canBuyDevelopmentCard (gameState : GameState) (playerId : String) :
    Validation :=
  match gameState.players.find? (fun p => p.id = playerId) with
  | none => Validation.fail ("Player not found")
  | some player =>
      if !ResourceManager.hasResources player.resources BUILDING_COSTS_developmentCard then
        Validation.fail ("Insufficient resources for development card")
      else if gameState.developmentCardDeck.length = 0 then
        Validation.fail ("No development cards remaining")
      else Validation.ok

def buyDevelopmentCard (gameState : GameState) (playerId : String) :
    Except String GameState :=
  let validation := canBuyDevelopmentCard gameState playerId
  if !validation.valid then Except.error (validation.error.getD ("Unknown error"))
  else
    let playerIndex := (gameState.players.findIdx? (fun p => p.id = playerId)).getD
      gameState.players.length
    match listPopLast gameState.developmentCardDeck with
    | none => Except.error ("TypeError")
    | some (drawnCard, rest) =>
        Except.ok
          { gameState with
            developmentCardDeck := rest
          , players :=
              listModify playerIndex
                (fun p =>
                  { p with
                    resources := ResourceManager.subtractResources p.resources
                      BUILDING_COSTS_developmentCard
                  , developmentCards := modifyCard p.developmentCards drawnCard (· + 1)
                  , canPlayDevCard := false })
                gameState.players }

/-- `canPlayDevelopmentCard`; the `players[currentPlayerIndex].id` dereference
that would raise a `TypeError` out of range is folded into an invalid result,
which the callers inside the orchestrator's failure boundary observe
identically. -/
def canPlayDevelopmentCard (gameState : GameState) (playerId : String)
    (cardType : DevelopmentCardType) : Validation :=
  match gameState.players.find? (fun p => p.id = playerId) with
  | none => Validation.fail ("Player not found")
  | some player =>
      if getCard player.developmentCards cardType = 0 then
        Validation.fail ("Player does not have this card")
      else if cardType ≠ DevelopmentCardType.victoryPoint &&
              ((gameState.players.get? gameState.currentPlayerIndex).map
                  (fun p => p.id)) ≠ some playerId then
        Validation.fail ("Can only play development cards on your turn")
      else if !player.canPlayDevCard && cardType ≠ DevelopmentCardType.victoryPoint then
        Validation.fail ("Cannot play development card on the same turn it was bought")
      else Validation.ok

def isRoadConnectedForFreeBuilding (gameState : GameState) (playerId : String)
    (edgeId : EdgeId) : Bool :=
  match alistGet edgeId gameState.board.edges with
  | none => false
  | some edge =>
      [edge.intersections.1, edge.intersections.2].any (fun intersectionId =>
        match alistGet intersectionId gameState.board.intersections with
        | none => false
        | some inter =>
            (match inter.building with
             | some b => b.playerId = playerId
             | none => false) ||
            inter.edges.any (fun connectedEdgeId =>
              if connectedEdgeId = edgeId then false
              else
                match alistGet connectedEdgeId gameState.board.edges with
                | some connectedEdge => connectedEdge.road = some playerId
                | none => false))

def buildFreeRoad (gameState : GameState) (playerId : String) (edgeId : EdgeId) :
    Except String GameState :=
  match alistGet edgeId gameState.board.edges with
  | none => Except.error ("Invalid edge location")
  | some edge =>
      if edge.road.isSome then Except.error ("Edge already has a road")
      else if !isRoadConnectedForFreeBuilding gameState playerId edgeId then
        Except.error ("Road must connect to existing road or building")
      else
        match gameState.players.find? (fun p => p.id = playerId) with
        | none => Except.error ("Player not found")
        | some player =>
            if (BuildingManager.getRemainingBuildings player).roads = 0 then
              Except.error ("No roads remaining")
            else
              let playerIndex := (gameState.players.findIdx? (fun p => p.id = playerId)).getD
                gameState.players.length
              Except.ok
                { gameState with
                  players :=
                    listModify playerIndex
                      (fun p => { p with buildings :=
                        { p.buildings with roads := p.buildings.roads ++ [edgeId] } })
                      gameState.players
                , board := { gameState.board with
                    edges := alistModify edgeId (fun e => { e with road := some playerId })
                      gameState.board.edges } }

/-- Private `updateLargestArmy` of the development-card manager, run at the end
of a knight play. -/
def updateLargestArmyAfterKnight (gameState : GameState) (playerId : String) :
    GameState :=
  match gameState.players.find? (fun p => p.id = playerId) with
  | none => gameState
  | some player =>
      if player.knightsPlayed < 3 then gameState
      else
        let currentHolder := gameState.players.find? (fun p => p.specialCards.largestArmy)
        let currentLargestCount :=
          match currentHolder with
          | some holder => holder.knightsPlayed
          | none => 2
        if player.knightsPlayed > currentLargestCount then
          let cleared :=
            match currentHolder with
            | some holder =>
                let holderIndex := (gameState.players.findIdx? (fun p => p.id = holder.id)).getD
                  gameState.players.length
                listModify holderIndex
                  (fun p => { p with
                    specialCards := { p.specialCards with largestArmy := false }
                  , victoryPoints := p.victoryPoints - 2 })
                  gameState.players
            | none => gameState.players
          let playerIndex := (cleared.findIdx? (fun p => p.id = playerId)).getD
            cleared.length
          let awarded :=
            listModify playerIndex
              (fun p =>
                let sc := { p.specialCards with largestArmy := true }
                { p with specialCards := sc, victoryPoints := p.victoryPoints + 2 })
              cleared
          { gameState with players := awarded }
        else gameState

def playKnightCard (o : Oracle) (gameState : GameState) (playerId : String)
    (newRobberLocation : HexCoordinate) (targetPlayerId : Option String) :
    Except String GameState :=
  let validation := canPlayDevelopmentCard gameState playerId DevelopmentCardType.knight
  if !validation.valid then Except.error (validation.error.getD ("Unknown error"))
  else
    let playerIndex := (gameState.players.findIdx? (fun p => p.id = playerId)).getD
      gameState.players.length
    let newState :=
      { gameState with
        players :=
          listModify playerIndex
            (fun p => { p with
              developmentCards := modifyCard p.developmentCards .knight (· - 1)
            , knightsPlayed := p.knightsPlayed + 1 })
            gameState.players }
    let newState :=
      { newState with
        board :=
          { newState.board with
            robberLocation := newRobberLocation
          , tiles :=
              alistModify newRobberLocation (fun t => { t with hasRobber := true })
                (newState.board.tiles.map
                  (fun kt => (kt.1, { kt.2 with hasRobber := false }))) } }
    match targetPlayerId with
    | some target =>
        if target ≠ playerId then
          ResourceManager.stealRandomResource o target playerId newState
        else Except.ok (updateLargestArmyAfterKnight newState playerId)
    | none => Except.ok (updateLargestArmyAfterKnight newState playerId)

def playRoadBuildingCard (gameState : GameState) (playerId : String)
    (edgeIds : EdgeId × EdgeId) : Except String GameState :=
  let validation := canPlayDevelopmentCard gameState playerId DevelopmentCardType.roadBuilding
  if !validation.valid then Except.error (validation.error.getD ("Unknown error"))
  else
    let playerIndex := (gameState.players.findIdx? (fun p => p.id = playerId)).getD
      gameState.players.length
    let newState :=
      { gameState with
        players :=
          listModify playerIndex
            (fun p => { p with
              developmentCards := modifyCard p.developmentCards .roadBuilding (· - 1) })
            gameState.players }
    match buildFreeRoad newState playerId edgeIds.1 with
    | Except.error e => Except.error ("Cannot build first road: " ++ e)
    | Except.ok newState2 =>
        if edgeIds.2 ≠ edgeIds.1 then
          match buildFreeRoad newState2 playerId edgeIds.2 with
          | Except.error e => Except.error ("Cannot build second road: " ++ e)
          | Except.ok newState3 => Except.ok newState3
        else Except.ok newState2

/-- The caller-side view of `playRoadBuildingCard`.  The source's
`{ ...gameState }` copies share the `players` array, the player objects and
the board maps with the caller's input, so the card decrement and every road
placed before a failure are mutations the caller observes on the state it
passed in.  The second component is the caller's input after the call: the
state as mutated so far (all mutations on this path go through shared
structures; no top-level field of the local copy is reassigned before the
throw). -/
def playRoadBuildingCardAliased (gameState : GameState) (playerId : String)
    (edgeIds : EdgeId × EdgeId) : Except String GameState × GameState :=
  let validation := canPlayDevelopmentCard gameState playerId DevelopmentCardType.roadBuilding
  if !validation.valid then
    (Except.error (validation.error.getD ("Unknown error")), gameState)
  else
    let playerIndex := (gameState.players.findIdx? (fun p => p.id = playerId)).getD
      gameState.players.length
    let newState :=
      { gameState with
        players :=
          listModify playerIndex
            (fun p => { p with
              developmentCards := modifyCard p.developmentCards .roadBuilding (· - 1) })
            gameState.players }
    match buildFreeRoad newState playerId edgeIds.1 with
    | Except.error e => (Except.error ("Cannot build first road: " ++ e), newState)
    | Except.ok newState2 =>
        if edgeIds.2 ≠ edgeIds.1 then
          match buildFreeRoad newState2 playerId edgeIds.2 with
          | Except.error e => (Except.error ("Cannot build second road: " ++ e), newState2)
          | Except.ok newState3 => (Except.ok newState3, newState3)
        else (Except.ok newState2, newState2)

def playInventionCard (gameState : GameState) (playerId : String)
    (resources : ResourceType × ResourceType) : Except String GameState :=
  let validation := canPlayDevelopmentCard gameState playerId DevelopmentCardType.invention
  if !validation.valid then Except.error (validation.error.getD ("Unknown error"))
  else
    let playerIndex := (gameState.players.findIdx? (fun p => p.id = playerId)).getD
      gameState.players.length
    let resourcesToAdd :=
      ResourceManager.addOne
        (ResourceManager.addOne ResourceManager.createEmptyResources resources.1 1)
        resources.2 1
    Except.ok
      { gameState with
        players :=
          listModify playerIndex
            (fun p => { p with
              developmentCards := modifyCard p.developmentCards .invention (· - 1)
            , resources := ResourceManager.addResources p.resources resourcesToAdd })
            gameState.players }

def playMonopolyCard (gameState : GameState) (playerId : String)
    (resourceType : ResourceType) : Except String GameState :=
  let validation := canPlayDevelopmentCard gameState playerId DevelopmentCardType.monopoly
  if !validation.valid then Except.error (validation.error.getD ("Unknown error"))
  else
    let playerIndex := (gameState.players.findIdx? (fun p => p.id = playerId)).getD
      gameState.players.length
    let totalStolen :=
      (gameState.players.enum.foldl
        (fun acc pi =>
          if pi.1 ≠ playerIndex then acc + ResourceManager.getOne pi.2.resources resourceType
          else acc) 0)
    let zeroed :=
      gameState.players.enum.map
        (fun pi =>
          if pi.1 ≠ playerIndex then
            let r := ResourceManager.addOne pi.2.resources resourceType
              (-(ResourceManager.getOne pi.2.resources resourceType))
            { pi.2 with resources := r }
          else pi.2)
    Except.ok
      { gameState with
        players :=
          listModify playerIndex
            (fun p => { p with
              developmentCards := modifyCard p.developmentCards .monopoly (· - 1)
            , resources := ResourceManager.addOne p.resources resourceType totalStolen })
            zeroed }

def playVictoryPointCard (gameState : GameState) (playerId : String) :
    Except String GameState :=
  let validation := canPlayDevelopmentCard gameState playerId DevelopmentCardType.victoryPoint
  if !validation.valid then Except.error (validation.error.getD ("Unknown error"))
  else
    let playerIndex := (gameState.players.findIdx? (fun p => p.id = playerId)).getD
      gameState.players.length
    Except.ok
      { gameState with
        players :=
          listModify playerIndex
            (fun p => { p with
              developmentCards := modifyCard p.developmentCards .victoryPoint (· - 1)
            , victoryPoints := p.victoryPoints + 1 })
            gameState.players }

def resetPlayDevCardFlag (gameState : GameState) : GameState :=
  { gameState with
    players := gameState.players.map (fun p => { p with canPlayDevCard := true }) }

end DevelopmentCardManager

/-! ## Robber subsystem (rule-engine/src/robber.ts) -/

namespace RobberManager

def canMoveRobber (gameState : GameState) (playerId : String)
    (newLocation : HexCoordinate) : Validation :=
  match gameState.players.find? (fun p => p.id = playerId) with
  | none => Validation.fail ("Player not found")
  | some _ =>
      if ((gameState.players.get? gameState.currentPlayerIndex).map
            (fun p => p.id)) ≠ some playerId then
        Validation.fail ("Not your turn")
      else
        match alistGet newLocation gameState.board.tiles with
        | none => Validation.fail ("Invalid hex location")
        | some _ =>
            let currentLocation := gameState.board.robberLocation
            if currentLocation.q = newLocation.q && currentLocation.r = newLocation.r then
              Validation.fail ("Robber must move to a different hex")
            else Validation.ok

def playerHasAdjacentBuilding (gameState : GameState) (playerId : String)
    (hexLocation : HexCoordinate) : Bool :=
  (alistValues gameState.board.intersections).any (fun inter =>
    inter.hexes.any (fun h => h.q = hexLocation.q && h.r = hexLocation.r) &&
    (match inter.building with
     | some b => b.playerId = playerId
     | none => false))

def canStealFromPlayer (gameState : GameState) (theftPlayerId targetPlayerId : String)
    (robberLocation : HexCoordinate) : Validation :=
  if theftPlayerId = targetPlayerId then
    Validation.fail ("Cannot steal from yourself")
  else
    match gameState.players.find? (fun p => p.id = targetPlayerId) with
    | none => Validation.fail ("Target player not found")
    | some targetPlayer =>
        if ResourceManager.getTotalResources targetPlayer.resources = 0 then
          Validation.fail ("Target player has no resources to steal")
        else if !playerHasAdjacentBuilding gameState targetPlayerId robberLocation then
          Validation.fail ("Target player has no buildings adjacent to robber")
        else Validation.ok

def moveRobber (o : Oracle) (gameState : GameState) (playerId : String)
    (newLocation : HexCoordinate) (targetPlayerId : Option String) :
    Except String GameState :=
  let validation := canMoveRobber gameState playerId newLocation
  if !validation.valid then Except.error (validation.error.getD ("Unknown error"))
  else
    let currentTileKey := gameState.board.robberLocation
    let newState :=
      { gameState with
        board :=
          { gameState.board with
            tiles :=
              alistModify newLocation (fun t => { t with hasRobber := true })
                (alistModify currentTileKey (fun t => { t with hasRobber := false })
                  gameState.board.tiles)
          , robberLocation := newLocation } }
    match targetPlayerId with
    | some target =>
        if target ≠ playerId then
          let stealValidation := canStealFromPlayer newState playerId target newLocation
          if stealValidation.valid then
            ResourceManager.stealRandomResource o target playerId newState
          else Except.ok newState
        else Except.ok newState
    | none => Except.ok newState

def mustDiscardResources (gameState : GameState) : List Player :=
  gameState.players.filter (fun player =>
    ResourceManager.getTotalResources player.resources > 7)

def isDiscardPhaseComplete (gameState : GameState) : Bool :=
  (mustDiscardResources gameState).length = 0

def getAllPlayersToDiscard (gameState : GameState) : List (String × Int × Int) :=
  (gameState.players.filter (fun player =>
    ResourceManager.getTotalResources player.resources > 7)).map
    (fun player =>
      ( player.id
      , ResourceManager.getTotalResources player.resources
      , ResourceManager.getTotalResources player.resources / 2 ))

/-- `handleSevenRolled` of the robber manager: a shallow copy plus the discard
work list. -/
def handleSevenRolled (gameState : GameState) :
    GameState × List (String × Int × Int) :=
  (gameState, getAllPlayersToDiscard gameState)

end RobberManager

/-! ## Victory subsystem (rule-engine/src/victory.ts) -/

namespace VictoryManager

/-- `calculateVictoryPoints`, kept in the shape of the source: the building and
bonus terms are added and then the residue of the stored accumulator is added
back, so the expression collapses to the stored `victoryPoints`. -/
def calculateVictoryPoints (player : Player) : Int :=
  let points : Int := 0
  let points := points + (player.buildings.settlements.length : Int) * 1
  let points := points + (player.buildings.cities.length : Int) * 2
  let points := points + (if player.specialCards.longestRoad then 2 else 0)
  let points := points + (if player.specialCards.largestArmy then 2 else 0)
  points +
    (player.victoryPoints - (player.buildings.settlements.length : Int) -
      (player.buildings.cities.length : Int) * 2 -
      (if player.specialCards.longestRoad then 2 else 0) -
      (if player.specialCards.largestArmy then 2 else 0))

def checkWinCondition (gameState : GameState) (playerId : String) : Bool :=
  match gameState.players.find? (fun p => p.id = playerId) with
  | none => false
  | some player => calculateVictoryPoints player ≥ 10

def getWinner (gameState : GameState) : Option Player :=
  (gameState.players.filter (fun player => calculateVictoryPoints player ≥ 10)).head?

def checkGameEnd (gameState : GameState) : Bool × Option Player :=
  let winner := getWinner gameState
  (winner.isSome, winner)

def isPathBlockedByOpponent (gameState : GameState) (intersectionId : IKey)
    (playerId : String) : Bool :=
  match alistGet intersectionId gameState.board.intersections with
  | none => false
  | some inter =>
      match inter.building with
      | none => false
      | some b => b.playerId ≠ playerId

/-- `buildRoadGraph`.  `edge.road!.playerId` on a ledger edge without a road
(impossible in states produced by the builders) is modelled as the empty
player id; the source would raise there instead. -/
def buildRoadGraph (gameState : GameState) (roadIds : List EdgeId) :
    List (EdgeId × List EdgeId) :=
  let graph : List (EdgeId × List EdgeId) :=
    roadIds.foldl (fun g roadId => alistSet roadId [] g) []
  roadIds.foldl
    (fun graph roadId =>
      match alistGet roadId gameState.board.edges with
      | none => graph
      | some edge =>
          let connectedRoads :=
            [edge.intersections.1, edge.intersections.2].foldl
              (fun acc intersectionId =>
                match alistGet intersectionId gameState.board.intersections with
                | none => acc
                | some inter =>
                    inter.edges.foldl
                      (fun acc connectedEdgeId =>
                        if connectedEdgeId ≠ roadId &&
                           roadIds.contains connectedEdgeId &&
                           !isPathBlockedByOpponent gameState intersectionId
                             (edge.road.getD "") then
                          acc ++ [connectedEdgeId]
                        else acc)
                      acc)
              []
          alistSet roadId connectedRoads graph)
    graph

/-- `depthFirstSearchLongestPath` with an explicit recursion budget.  The
source recurses unboundedly, marking the current road on entry and unmarking
on return; passing the extended path stack to each recursive call models
exactly that mark/unmark discipline.  `claimC9` below shows any budget larger
than the number of graph vertices is enough, i.e. the search terminates. -/
def depthFirstSearchLongestPath (graph : List (EdgeId × List EdgeId)) :
    Nat → EdgeId → List EdgeId → Nat
  | 0, _, _ => 0
  | fuel + 1, currentRoad, visited =>
      let visited2 := currentRoad :: visited
      let neighbors := (alistGet currentRoad graph).getD []
      let maxPath :=
        neighbors.foldl
          (fun maxPath neighborRoad =>
            if visited2.contains neighborRoad then maxPath
            else max maxPath
              (depthFirstSearchLongestPath graph fuel neighborRoad visited2))
          0
      maxPath + 1

/-- The road graph `calculateLongestRoadLength` searches for a player. -/
def playerRoadGraph (gameState : GameState) (playerId : String) :
    List (EdgeId × List EdgeId) :=
  match gameState.players.find? (fun p => p.id = playerId) with
  | none => []
  | some player => buildRoadGraph gameState player.buildings.roads

def calculateLongestRoadLengthWithFuel (gameState : GameState)
    (playerId : String) (fuel : Nat) : Nat :=
  match gameState.players.find? (fun p => p.id = playerId) with
  | none => 0
  | some player =>
      if player.buildings.roads.length = 0 then 0
      else
        let roadGraph := buildRoadGraph gameState player.buildings.roads
        player.buildings.roads.foldl
          (fun maxLength roadId =>
            max maxLength (depthFirstSearchLongestPath roadGraph fuel roadId []))
          0

def calculateLongestRoadLength (gameState : GameState) (playerId : String) :
    Nat :=
  calculateLongestRoadLengthWithFuel gameState playerId
    ((playerRoadGraph gameState playerId).length + 1)

/-- Descending insertion sort on (id, value) pairs, standing in for the
source's in-place `sort((a, b) => b.length - a.length)`; only the head value
(the maximum) and membership of the result are ever consumed. -/
def insertByValueDesc (x : String × Nat) : List (String × Nat) → List (String × Nat)
  | [] => [x]
  | y :: ys => if x.2 ≥ y.2 then x :: y :: ys else y :: insertByValueDesc x ys

def sortByValueDesc : List (String × Nat) → List (String × Nat)
  | [] => []
  | x :: xs => insertByValueDesc x (sortByValueDesc xs)

def clearLongestRoadAt (players : List Player) (i : Nat) : List Player :=
  listModify i
    (fun p =>
      let sc := { p.specialCards with longestRoad := false }
      { p with specialCards := sc, victoryPoints := p.victoryPoints - 2 })
    players

def awardLongestRoadAt (players : List Player) (i : Nat) : List Player :=
  listModify i
    (fun p =>
      let sc := { p.specialCards with longestRoad := true }
      { p with specialCards := sc, victoryPoints := p.victoryPoints + 2 })
    players

def updateLongestRoad (gameState : GameState) : GameState :=
  let roadLengths := gameState.players.map
    (fun player => (player.id, calculateLongestRoadLength gameState player.id))
  let validRoads := roadLengths.filter (fun road => road.2 ≥ 5)
  if validRoads.isEmpty then
    { gameState with
      players := gameState.players.map (fun p =>
        if p.specialCards.longestRoad then
          let sc := { p.specialCards with longestRoad := false }
          { p with specialCards := sc, victoryPoints := p.victoryPoints - 2 }
        else p) }
  else
    let sorted := sortByValueDesc validRoads
    let longestLength := (sorted.head?.map (fun road => road.2)).getD 0
    let tiedPlayers := sorted.filter (fun road => road.2 = longestLength)
    let currentHolder := gameState.players.find? (fun p => p.specialCards.longestRoad)
    if tiedPlayers.length = 1 then
      let winnerId := (tiedPlayers.head?.map (fun road => road.1)).getD ("")
      let cleared :=
        match currentHolder with
        | some holder =>
            if holder.id ≠ winnerId then
              clearLongestRoadAt gameState.players
                ((gameState.players.findIdx? (fun p => p.id = holder.id)).getD
                  gameState.players.length)
            else gameState.players
        | none => gameState.players
      let awarded :=
        match currentHolder with
        | some holder =>
            if holder.id ≠ winnerId then
              awardLongestRoadAt cleared
                ((cleared.findIdx? (fun p => p.id = winnerId)).getD cleared.length)
            else cleared
        | none =>
            awardLongestRoadAt cleared
              ((cleared.findIdx? (fun p => p.id = winnerId)).getD cleared.length)
      { gameState with players := awarded }
    else
      match currentHolder with
      | some holder =>
          if tiedPlayers.any (fun road => road.1 = holder.id) then gameState
          else
            { gameState with
              players :=
                clearLongestRoadAt gameState.players
                  ((gameState.players.findIdx? (fun p => p.id = holder.id)).getD
                    gameState.players.length) }
      | none => gameState

def clearLargestArmyAt (players : List Player) (i : Nat) : List Player :=
  listModify i
    (fun p =>
      let sc := { p.specialCards with largestArmy := false }
      { p with specialCards := sc, victoryPoints := p.victoryPoints - 2 })
    players

def awardLargestArmyAt (players : List Player) (i : Nat) : List Player :=
  listModify i
    (fun p =>
      let sc := { p.specialCards with largestArmy := true }
      { p with specialCards := sc, victoryPoints := p.victoryPoints + 2 })
    players

def updateLargestArmy (gameState : GameState) : GameState :=
  let armySizes := gameState.players.map (fun player => (player.id, player.knightsPlayed))
  let validArmies := armySizes.filter (fun army => army.2 ≥ 3)
  if validArmies.isEmpty then
    { gameState with
      players := gameState.players.map (fun p =>
        if p.specialCards.largestArmy then
          let sc := { p.specialCards with largestArmy := false }
          { p with specialCards := sc, victoryPoints := p.victoryPoints - 2 }
        else p) }
  else
    let sorted := sortByValueDesc validArmies
    let largestSize := (sorted.head?.map (fun army => army.2)).getD 0
    let tiedPlayers := sorted.filter (fun army => army.2 = largestSize)
    let currentHolder := gameState.players.find? (fun p => p.specialCards.largestArmy)
    if tiedPlayers.length = 1 then
      let winnerId := (tiedPlayers.head?.map (fun army => army.1)).getD ("")
      let cleared :=
        match currentHolder with
        | some holder =>
            if holder.id ≠ winnerId then
              clearLargestArmyAt gameState.players
                ((gameState.players.findIdx? (fun p => p.id = holder.id)).getD
                  gameState.players.length)
            else gameState.players
        | none => gameState.players
      let awarded :=
        match currentHolder with
        | some holder =>
            if holder.id ≠ winnerId then
              awardLargestArmyAt cleared
                ((cleared.findIdx? (fun p => p.id = winnerId)).getD cleared.length)
            else cleared
        | none =>
            awardLargestArmyAt cleared
              ((cleared.findIdx? (fun p => p.id = winnerId)).getD cleared.length)
      { gameState with players := awarded }
    else
      match currentHolder with
      | some holder =>
          if tiedPlayers.any (fun army => army.1 = holder.id) then gameState
          else
            { gameState with
              players :=
                clearLargestArmyAt gameState.players
                  ((gameState.players.findIdx? (fun p => p.id = holder.id)).getD
                    gameState.players.length) }
      | none => gameState

end VictoryManager

/-! ## Orchestrator (rule-engine/src/rule-engine.ts) -/

/-- Action payloads of `PLAY_DEVELOPMENT_CARD`, one variant per card kind as
dispatched by `handlePlayDevelopmentCard`. -/
inductive DevCardPayload where
  | knight (robberLocation : HexCoordinate) (targetPlayerId : Option String)
  | roadBuilding (edgeIds : EdgeId × EdgeId)
  | invention (resources : ResourceType × ResourceType)
  | monopoly (resourceType : ResourceType)
  | victoryPoint
deriving DecidableEq

/-- Actions as a closed sum, one variant per `ActionType` with the payload
fields that kind's handler reads (`Action` in the source; named `GameAction`
here because Mathlib already declares an `Action`). -/
inductive GameAction where
  | ROLL_DICE (playerId : String)
  | BUILD_ROAD (playerId : String) (edgeId : EdgeId)
  | BUILD_SETTLEMENT (playerId : String) (intersectionId : IKey)
  | BUILD_CITY (playerId : String) (intersectionId : IKey)
  | BUY_DEVELOPMENT_CARD (playerId : String)
  | PLAY_DEVELOPMENT_CARD (playerId : String) (card : DevCardPayload)
  | TRADE_WITH_PLAYER (playerId : String) (tradeOffer : TradeOffer)
  | TRADE_WITH_BANK (playerId : String) (tradeOffer : TradeOffer)
  | MOVE_ROBBER (playerId : String) (robberLocation : HexCoordinate)
      (targetPlayerId : Option String)
  | DISCARD_RESOURCES (playerId : String) (resourcesToDiscard : Resources)
  | END_TURN (playerId : String)
deriving DecidableEq

def GameAction.playerId : GameAction → String
  | .ROLL_DICE pid => pid
  | .BUILD_ROAD pid _ => pid
  | .BUILD_SETTLEMENT pid _ => pid
  | .BUILD_CITY pid _ => pid
  | .BUY_DEVELOPMENT_CARD pid => pid
  | .PLAY_DEVELOPMENT_CARD pid _ => pid
  | .TRADE_WITH_PLAYER pid _ => pid
  | .TRADE_WITH_BANK pid _ => pid
  | .MOVE_ROBBER pid _ _ => pid
  | .DISCARD_RESOURCES pid _ => pid
  | .END_TURN pid => pid

namespace CatanRuleEngine

/-- The id of `players[currentPlayerIndex]`: `none` when the index is out of
range (where the source's dereference would raise a `TypeError`). -/
def getCurrentPlayerId (gameState : GameState) : Option String :=
  (gameState.players.get? gameState.currentPlayerIndex).map (fun p => p.id)

def handleRollDice (o : Oracle) (gameState : GameState) (playerId : String) :
    Except String GameState :=
  if gameState.phase ≠ GamePhase.PRODUCTION then
    Except.error ("Can only roll dice during production phase")
  else
    match gameState.players.get? gameState.currentPlayerIndex with
    | none => Except.error ("TypeError")
    | some cur =>
        if cur.id ≠ playerId then Except.error ("Not your turn to roll dice")
        else
          let diceRoll := ResourceManager.rollDice o
          let diceSum := diceRoll.1 + diceRoll.2
          let newState := { gameState with diceRoll := some diceRoll }
          let newState :=
            if diceSum = 7 then
              let sevenResult := RobberManager.handleSevenRolled newState
              { sevenResult.1 with diceRoll := some diceRoll }
            else
              { ResourceManager.distributeResources newState diceSum with
                  diceRoll := some diceRoll }
          if diceSum ≠ 7 || RobberManager.isDiscardPhaseComplete newState then
            Except.ok { newState with phase := GamePhase.ACTION }
          else Except.ok newState

def handleBuildRoad (gameState : GameState) (playerId : String)
    (edgeId : EdgeId) : Except String GameState :=
  match gameState.players.get? gameState.currentPlayerIndex with
  | none => Except.error ("TypeError")
  | some cur =>
      if cur.id ≠ playerId then Except.error ("Not your turn to build")
      else BuildingManager.buildRoad gameState playerId edgeId

def handleBuildSettlement (gameState : GameState) (playerId : String)
    (intersectionId : IKey) : Except String GameState :=
  match gameState.players.get? gameState.currentPlayerIndex with
  | none => Except.error ("TypeError")
  | some cur =>
      if cur.id ≠ playerId then Except.error ("Not your turn to build")
      else BuildingManager.buildSettlement gameState playerId intersectionId

def handleBuildCity (gameState : GameState) (playerId : String)
    (intersectionId : IKey) : Except String GameState :=
  match gameState.players.get? gameState.currentPlayerIndex with
  | none => Except.error ("TypeError")
  | some cur =>
      if cur.id ≠ playerId then Except.error ("Not your turn to build")
      else BuildingManager.buildCity gameState playerId intersectionId

def handleBuyDevelopmentCard (gameState : GameState) (playerId : String) :
    Except String GameState :=
  DevelopmentCardManager.buyDevelopmentCard gameState playerId

def handlePlayDevelopmentCard (o : Oracle) (gameState : GameState)
    (playerId : String) (card : DevCardPayload) : Except String GameState :=
  match card with
  | .knight robberLocation targetPlayerId =>
      DevelopmentCardManager.playKnightCard o gameState playerId robberLocation
        targetPlayerId
  | .roadBuilding edgeIds =>
      DevelopmentCardManager.playRoadBuildingCard gameState playerId edgeIds
  | .invention resources =>
      DevelopmentCardManager.playInventionCard gameState playerId resources
  | .monopoly resourceType =>
      DevelopmentCardManager.playMonopolyCard gameState playerId resourceType
  | .victoryPoint =>
      DevelopmentCardManager.playVictoryPointCard gameState playerId

def handlePlayerTrade (gameState : GameState) (tradeOffer : TradeOffer) :
    Except String GameState :=
  TradingManager.executeTrade gameState tradeOffer

def handleBankTrade (gameState : GameState) (tradeOffer : TradeOffer) :
    Except String GameState :=
  TradingManager.executeTrade gameState tradeOffer

def handleMoveRobber (o : Oracle) (gameState : GameState) (playerId : String)
    (robberLocation : HexCoordinate) (targetPlayerId : Option String) :
    Except String GameState :=
  RobberManager.moveRobber o gameState playerId robberLocation targetPlayerId

def handleDiscardResources (gameState : GameState) (playerId : String)
    (resourcesToDiscard : Resources) : Except String GameState :=
  ResourceManager.discardResources gameState playerId resourcesToDiscard

def handleEndTurn (gameState : GameState) (playerId : String) :
    Except String GameState :=
  match gameState.players.get? gameState.currentPlayerIndex with
  | none => Except.error ("TypeError")
  | some cur =>
      if cur.id ≠ playerId then Except.error ("Not your turn to end turn")
      else
        let newState := DevelopmentCardManager.resetPlayDevCardFlag gameState
        let newState :=
          { newState with
            currentPlayerIndex :=
              (newState.currentPlayerIndex + 1) % newState.players.length }
        let newState :=
          if newState.currentPlayerIndex = 0 then
            { newState with turn := newState.turn + 1 }
          else newState
        if newState.phase = GamePhase.SETUP_ROUND_1 then
          if newState.currentPlayerIndex = 0 && newState.turn > 1 then
            Except.ok
              { newState with
                phase := GamePhase.SETUP_ROUND_2
              , currentPlayerIndex := newState.players.length - 1 }
          else Except.ok newState
        else if newState.phase = GamePhase.SETUP_ROUND_2 then
          if newState.currentPlayerIndex = 0 then
            Except.ok { newState with phase := GamePhase.PRODUCTION }
          else Except.ok newState
        else Except.ok { newState with phase := GamePhase.PRODUCTION }

/-- `processAction`: dispatch inside the failure boundary, then recompute the
victory bonuses and the win condition. -/
def processAction (o : Oracle) (gameState : GameState) (action : GameAction) :
    GameResult :=
  let dispatched : Except String GameState :=
    match action with
    | .ROLL_DICE pid => handleRollDice o gameState pid
    | .BUILD_ROAD pid edgeId => handleBuildRoad gameState pid edgeId
    | .BUILD_SETTLEMENT pid intersectionId =>
        handleBuildSettlement gameState pid intersectionId
    | .BUILD_CITY pid intersectionId => handleBuildCity gameState pid intersectionId
    | .BUY_DEVELOPMENT_CARD pid => handleBuyDevelopmentCard gameState pid
    | .PLAY_DEVELOPMENT_CARD pid card => handlePlayDevelopmentCard o gameState pid card
    | .TRADE_WITH_PLAYER _ tradeOffer => handlePlayerTrade gameState tradeOffer
    | .TRADE_WITH_BANK _ tradeOffer => handleBankTrade gameState tradeOffer
    | .MOVE_ROBBER pid robberLocation targetPlayerId =>
        handleMoveRobber o gameState pid robberLocation targetPlayerId
    | .DISCARD_RESOURCES pid resourcesToDiscard =>
        handleDiscardResources gameState pid resourcesToDiscard
    | .END_TURN pid => handleEndTurn gameState pid
  match dispatched with
  | Except.error e => GameResult.failure e
  | Except.ok newState =>
      let newState := VictoryManager.updateLongestRoad newState
      let newState := VictoryManager.updateLargestArmy newState
      let gameEnd := VictoryManager.checkGameEnd newState
      if gameEnd.1 then
        GameResult.success
          { newState with
            phase := GamePhase.GAME_OVER
          , winner := gameEnd.2.map (fun p => p.id) }
      else GameResult.success newState

/-- `createNewGame`; the `Date.now()`-based game id is modelled by a constant
string, and the deck shuffle's random draws by `shuffleRand`. -/
def createNewGame (playerIds : List String) (shuffleRand : Nat → Nat) :
    Except String GameState :=
  if playerIds.length < 2 || playerIds.length > 4 then
    Except.error ("Game requires 2-4 players")
  else
    let colors := [("red" : String), "blue", "white", "orange"]
    let players : List Player :=
      playerIds.enum.map (fun ip =>
        { id := ip.2
        , color := (colors.get? ip.1).getD ("")
        , resources := ⟨0, 0, 0, 0, 0⟩
        , developmentCards := ⟨0, 0, 0, 0, 0⟩
        , buildings := ⟨[], [], []⟩
        , specialCards := ⟨false, false⟩
        , knightsPlayed := 0
        , victoryPoints := 0
        , canPlayDevCard := true })
    Except.ok
      { id := "game"
      , phase := GamePhase.SETUP_ROUND_1
      , currentPlayerIndex := 0
      , players := players
      , board := BoardGenerator.generateStandardBoard
      , developmentCardDeck := DevelopmentCardManager.createStandardDeck shuffleRand
      , diceRoll := none
      , turn := 1
      , winner := none }

end CatanRuleEngine

/-! ## Specification-side definitions

Definitions in this section follow the wording of the design document rather
than the code; the theorems below compare them with the embedded code. -/

/-- Componentwise sum of two resource records. -/
def Resources.plus (a b : Resources) : Resources :=
  ⟨a.wood + b.wood, a.brick + b.brick, a.wool + b.wool,
   a.wheat + b.wheat, a.ore + b.ore⟩

/-- Spec: "for every tile whose number-disc equals the sum and which is not
robber-occupied, resolve its terrain to a resource kind (desert produces
nothing) and, for every intersection touching that tile with a building,
credit its owner 1 unit (settlement) or 2 units (city) of that resource" —
the total such credit for the player `pid`. -/
def productionGain (gameState : GameState) (diceSum : Nat) (pid : String) :
    Resources :=
  (alistValues gameState.board.tiles).foldl
    (fun acc tile =>
      if tile.numberDisc = some diceSum && !tile.hasRobber &&
         !(tile.terrain = TerrainType.desert) then
        match ResourceManager.terrainToResource tile.terrain with
        | none => acc
        | some rt =>
            (alistValues gameState.board.intersections).foldl
              (fun acc inter =>
                if inter.hexes.any (fun h =>
                     h.q = tile.coordinate.q && h.r = tile.coordinate.r) then
                  match inter.building with
                  | some b =>
                      if b.playerId = pid then
                        ResourceManager.addOne acc rt (if b.isCity then 2 else 1)
                      else acc
                  | none => acc
                else acc)
              acc
      else acc)
    ⟨0, 0, 0, 0, 0⟩

/-- Proof-side mirror of `creditIntersection` acting on a single player's
resource record; the credited seat is resolved against the fixed id list
`ids`. -/
def creditStepRes (tileCoord : HexCoordinate) (resourceType : ResourceType)
    (ids : List String) (i : Nat) (acc : Resources) (inter : Intersection) :
    Resources :=
  match inter.building with
  | some b =>
      if inter.hexes.any (fun h => h.q = tileCoord.q && h.r = tileCoord.r) then
        match ids.findIdx? (fun s => s = b.playerId) with
        | some j =>
            if j = i then
              ResourceManager.addOne acc resourceType (if b.isCity then 2 else 1)
            else acc
        | none => acc
      else acc
  | none => acc

/-- Proof-side mirror of `creditTile` on one player's resource record. -/
def tileGainAt (gameState : GameState) (ids : List String) (i : Nat)
    (acc : Resources) (tileCoord : HexCoordinate) : Resources :=
  match alistGet tileCoord gameState.board.tiles with
  | none => acc
  | some tile =>
      if tile.terrain = TerrainType.desert then acc
      else
        match ResourceManager.terrainToResource tile.terrain with
        | none => acc
        | some rt =>
            (alistValues gameState.board.intersections).foldl
              (creditStepRes tileCoord rt ids i) acc

/-- Spec: the player "has a building on any generic-port intersection". -/
def buildingOnGenericPort (gameState : GameState) (player : Player) : Bool :=
  (player.buildings.settlements ++ player.buildings.cities).any (fun iid =>
    match alistGet iid gameState.board.intersections with
    | some inter =>
        match inter.port with
        | some port => port.type = none
        | none => false
    | none => false)

/-- Spec: the player "has a building on the specific-port intersection for the
offered kind". -/
def buildingOnSpecificPort (gameState : GameState) (player : Player)
    (rt : ResourceType) : Bool :=
  (player.buildings.settlements ++ player.buildings.cities).any (fun iid =>
    match alistGet iid gameState.board.intersections with
    | some inter =>
        match inter.port with
        | some port => port.type = some rt
        | none => false
    | none => false)

/-- Spec: "the required ratio is the minimum of (a) 4, (b) 3 if the player
owns any generic port, (c) 2 if the player owns the specific-resource port for
the offered kind". -/
def specTradeRatio (gameState : GameState) (player : Player)
    (rt : ResourceType) : Int :=
  min (min 4 (if buildingOnGenericPort gameState player then 3 else 4))
    (if buildingOnSpecificPort gameState player rt then 2 else 4)

/-- The resource kinds named (with a positive amount) by one side of an offer,
in the fixed field order. -/
def offeredKinds (r : Resources) : List ResourceType :=
  ([ ResourceType.wood, ResourceType.brick, ResourceType.wool
   , ResourceType.wheat, ResourceType.ore ]).filter
    (fun rt => ResourceManager.getOne r rt > 0)

/-- Spec: the offer "must name exactly one offered resource kind and exactly
one requested resource kind; ... the offered amount must be ≥ ratio ×
requested amount". -/
def bankTradeAllowedSpec (gameState : GameState) (player : Player)
    (offer : TradeOffer) : Prop :=
  match offeredKinds offer.offering, offeredKinds offer.requesting with
  | [offeringResource], [requestingResource] =>
      ResourceManager.getOne offer.offering offeringResource ≥
        specTradeRatio gameState player offeringResource *
          ResourceManager.getOne offer.requesting requestingResource
  | _, _ => False

/-! ## State observers used by the theorems -/

/-- The ports collected by `getAccessiblePorts`, as a `filterMap`. -/
def accessiblePortsSpec (gameState : GameState) (player : Player) : List Port :=
  (player.buildings.settlements ++ player.buildings.cities).filterMap
    (fun iid => (alistGet iid gameState.board.intersections).bind (fun i => i.port))

/-- Whether the player at seat `i` holds the longest-road bonus. -/
def holdsLongestRoad (gameState : GameState) (i : Nat) : Bool :=
  ((gameState.players.get? i).map (fun p => p.specialCards.longestRoad)).getD false

/-- The longest-road length of the player at seat `i`. -/
def roadLengthAt (gameState : GameState) (i : Nat) : Nat :=
  ((gameState.players.get? i).map
    (fun p => VictoryManager.calculateLongestRoadLength gameState p.id)).getD 0

/-- The maximum longest-road length over all seats. -/
def maxRoadLength (gameState : GameState) : Nat :=
  (gameState.players.map
    (fun p => VictoryManager.calculateLongestRoadLength gameState p.id)).foldr max 0

/-- At most one seat holds the longest-road bonus. -/
def atMostOneLongestRoadHolder (gameState : GameState) : Prop :=
  ∀ i j pi pj, gameState.players.get? i = some pi →
    gameState.players.get? j = some pj →
    pi.specialCards.longestRoad = true → pj.specialCards.longestRoad = true →
    i = j

/-- All intersection ports carry the standard ratios (3 generic, 2 specific),
as the board generator assigns them; a decidable check over the board. -/
def standardPortRatiosB (board : GameBoard) : Bool :=
  board.intersections.all (fun p =>
    match p.2.port with
    | none => true
    | some port =>
        port.ratio = (match port.type with | none => 3 | some _ => 2))

abbrev standardPortRatios (board : GameBoard) : Prop :=
  standardPortRatiosB board = true

/-- Tile map well-formedness: every entry is keyed by its tile's coordinate
and keys are unique (true of generated boards). -/
abbrev tilesWellKeyed (board : GameBoard) : Prop :=
  (∀ p ∈ board.tiles, p.1 = p.2.coordinate) ∧ (alistKeys board.tiles).Nodup

def GameResult.isOkBool : Except String GameState → Bool
  | Except.ok _ => true
  | Except.error _ => false

/-- Number of tiles carrying the robber flag. -/
def countRobberTiles (gameState : GameState) : Nat :=
  (gameState.board.tiles.filter (fun kt => kt.2.hasRobber)).length

/-- Total resource units across all players. -/
def totalAllResources (gameState : GameState) : Int :=
  (gameState.players.map
    (fun p => ResourceManager.getTotalResources p.resources)).foldr (· + ·) 0

/-- Action kinds whose handlers check the acting player against
`players[currentPlayerIndex]` before doing anything else (every kind except
`BUY_DEVELOPMENT_CARD`, the two trades, `DISCARD_RESOURCES`, and
victory-point card plays). -/
def turnGuarded : GameAction → Bool
  | .ROLL_DICE _ => true
  | .BUILD_ROAD _ _ => true
  | .BUILD_SETTLEMENT _ _ => true
  | .BUILD_CITY _ _ => true
  | .MOVE_ROBBER _ _ _ => true
  | .END_TURN _ => true
  | .PLAY_DEVELOPMENT_CARD _ card =>
      match card with
      | .victoryPoint => false
      | _ => true
  | _ => false

/-! ## Concrete game states and action traces -/

/-- Shuffle oracle that swaps positions 24 and 0 and leaves the rest in place,
so the shuffled deck ends in a knight. -/
def knightLastShuffle : Nat → Nat := fun n => if n = 25 then 0 else n - 1

def oracleZero : Oracle := ⟨0, 0, 0⟩

/-- Fallback state for the impossible error branch of `createNewGame` on a
well-sized player list. -/
def fallbackState : GameState :=
  { id := "x", phase := .SETUP_ROUND_1, currentPlayerIndex := 0, players := []
  , board := ⟨[], [], [], ⟨0, 0⟩⟩, developmentCardDeck := [], diceRoll := none
  , turn := 1, winner := none }

/-- A fresh two-player game (`createNewGame(['p1','p2'])`). -/
def newGameTwoPlayers : GameState :=
  match CatanRuleEngine.createNewGame ["p1", "p2"] knightLastShuffle with
  | Except.ok s => s
  | Except.error _ => fallbackState

/-- Five connected road edges down the board's central column. -/
def roadChain : List EdgeId :=
  [ BoardGenerator.createEdgeId ⟨0, -2⟩ ⟨0, -1⟩
  , BoardGenerator.createEdgeId ⟨0, -1⟩ ⟨0, 0⟩
  , BoardGenerator.createEdgeId ⟨0, 0⟩ ⟨0, 1⟩
  , BoardGenerator.createEdgeId ⟨0, 1⟩ ⟨0, 2⟩
  , BoardGenerator.createEdgeId ⟨0, 2⟩ ⟨0, 3⟩ ]

/-- A fresh two-player game in which player 1 carries the five-edge connected
road chain (the minimal qualifying longest road) and player 2 has none. -/
def roadFiveState : GameState :=
  let ps := listModify 0
    (fun p => { p with buildings := { p.buildings with roads := roadChain } })
    newGameTwoPlayers.players
  { newGameTwoPlayers with players := ps }

/-- Fold a list of actions (with their oracles) through `processAction`;
`none` as soon as one action fails, so a `some` result certifies that every
action in the list succeeded. -/
def runActions (gameState : GameState) (actions : List (Oracle × GameAction)) :
    Option GameState :=
  actions.foldl
    (fun acc oa => acc.bind (fun s => (CatanRuleEngine.processAction oa.1 s oa.2).state?))
    (some gameState)

/-- Both setup rounds of a two-player game: player 1 settles once, player 2
settles in round 1 and again in round 2 (the only round-2 turn the engine
grants). -/
def setupTrace : List (Oracle × GameAction) :=
  [ (oracleZero, .BUILD_SETTLEMENT "p1" ⟨-2, 2⟩)
  , (oracleZero, .BUILD_ROAD "p1" (BoardGenerator.createEdgeId ⟨-2, 2⟩ ⟨-2, 3⟩))
  , (oracleZero, .END_TURN "p1")
  , (oracleZero, .BUILD_SETTLEMENT "p2" ⟨1, -1⟩)
  , (oracleZero, .BUILD_ROAD "p2" (BoardGenerator.createEdgeId ⟨1, -1⟩ ⟨1, 0⟩))
  , (oracleZero, .END_TURN "p2")
  , (oracleZero, .BUILD_SETTLEMENT "p2" ⟨0, -2⟩)
  , (oracleZero, .BUILD_ROAD "p2" (BoardGenerator.createEdgeId ⟨0, -2⟩ ⟨0, -1⟩))
  , (oracleZero, .END_TURN "p2") ]

/-- After setup: player 2 rolls 9, 10 and 6 on their turns (wool, ore and
wheat for their settlements), buys the knight on top of the deck, and after
the next turn change plays it onto the off-board hex (9,9). -/
def knightOffBoardTrace : List (Oracle × GameAction) :=
  setupTrace ++
  [ (oracleZero, .END_TURN "p1")
  , (⟨3, 4, 0⟩, .ROLL_DICE "p2")
  , (oracleZero, .END_TURN "p2")
  , (oracleZero, .END_TURN "p1")
  , (⟨3, 5, 0⟩, .ROLL_DICE "p2")
  , (oracleZero, .END_TURN "p2")
  , (oracleZero, .END_TURN "p1")
  , (⟨1, 3, 0⟩, .ROLL_DICE "p2")
  , (oracleZero, .BUY_DEVELOPMENT_CARD "p2")
  , (oracleZero, .END_TURN "p2")
  , (oracleZero, .END_TURN "p1")
  , (oracleZero, .PLAY_DEVELOPMENT_CARD "p2" (.knight ⟨9, 9⟩ none)) ]

/-- A fresh game, except player 1 holds one road-building card and a
settlement at (0,-1). -/
def roadBuildingState : GameState :=
  { newGameTwoPlayers with
    players := listModify 0
      (fun p => { p with developmentCards := { p.developmentCards with roadBuilding := 1 } })
      newGameTwoPlayers.players
  , board := { newGameTwoPlayers.board with
      intersections := alistModify ⟨0, -1⟩
        (fun i => { i with building := some (BuildingOcc.settlement "p1") })
        newGameTwoPlayers.board.intersections } }

/-- A buildable edge touching player 1's settlement at (0,-1). -/
def roadBuildingEdge1 : EdgeId := BoardGenerator.createEdgeId ⟨0, -1⟩ ⟨1, -1⟩

/-- An off-board edge, so the second free road fails. -/
def roadBuildingEdge2 : EdgeId := BoardGenerator.createEdgeId ⟨9, 9⟩ ⟨10, 9⟩

def roadBuildingAction : GameAction :=
  .PLAY_DEVELOPMENT_CARD "p1" (.roadBuilding (roadBuildingEdge1, roadBuildingEdge2))

/-- A fresh game, except player 2 (not the current player) holds 4 wood plus
the development-card cost. -/
def offTurnState : GameState :=
  { newGameTwoPlayers with
    players := listModify 1 (fun p => { p with resources := ⟨4, 0, 1, 1, 1⟩ })
      newGameTwoPlayers.players }

def offTurnBankOffer : TradeOffer := ⟨⟨4, 0, 0, 0, 0⟩, ⟨0, 1, 0, 0, 0⟩, "p2", none⟩

def offTurnPlayerOffer : TradeOffer := ⟨⟨0, 0, 1, 0, 0⟩, ⟨0, 1, 0, 0, 0⟩, "p2", some "p1"⟩

/-- A fresh game, except player 1 is locked out of card play this turn while
holding a victory-point card. -/
def lockedVpState : GameState :=
  { newGameTwoPlayers with
    players := listModify 0
      (fun p =>
        { p with
          canPlayDevCard := false
        , developmentCards := { p.developmentCards with victoryPoint := 1 } })
      newGameTwoPlayers.players }

/-- A fresh game, except player 1 holds a single wood. -/
def clampTradeState : GameState :=
  { newGameTwoPlayers with
    players := listModify 0 (fun p => { p with resources := ⟨1, 0, 0, 0, 0⟩ })
      newGameTwoPlayers.players }

/-- Player 1 offers their 1 wood for 2 brick that player 2 does not have. -/
def clampTradeOffer : TradeOffer := ⟨⟨1, 0, 0, 0, 0⟩, ⟨0, 2, 0, 0, 0⟩, "p1", some "p2"⟩

/-! ## Supporting lemmas -/

set_option maxRecDepth 100000

theorem listModify_get?_self (i : Nat) (f : α → α) (l : List α) :
    (listModify i f l).get? i = (l.get? i).map f := by
  induction l generalizing i with
  | nil => cases i <;> rfl
  | cons x xs ih =>
      cases i with
      | zero => rfl
      | succ n => simpa [listModify] using ih n

theorem listModify_get?_ne (i j : Nat) (h : j ≠ i) (f : α → α) (l : List α) :
    (listModify i f l).get? j = l.get? j := by
  induction l generalizing i j with
  | nil => cases i <;> rfl
  | cons x xs ih =>
      cases i with
      | zero => cases j with
          | zero => exact absurd rfl h
          | succ m => rfl
      | succ n =>
          cases j with
          | zero => rfl
          | succ m => simpa [listModify] using ih n m (by omega)

theorem listModify_length (i : Nat) (f : α → α) (l : List α) :
    (listModify i f l).length = l.length := by
  induction l generalizing i with
  | nil => cases i <;> rfl
  | cons x xs ih => cases i <;> simp [listModify, ih]

theorem findIdx?_lt_length {p : α → Bool} {l : List α} {i : Nat}
    (h : l.findIdx? p = some i) : i < l.length := by
  obtain ⟨hlt, -, -⟩ := List.findIdx?_eq_some_iff_getElem.mp h
  exact hlt

theorem findIdx?_get?_prop {p : α → Bool} {l : List α} {i : Nat}
    (h : l.findIdx? p = some i) : ∃ a, l.get? i = some a ∧ p a = true := by
  obtain ⟨hlt, hp, -⟩ := List.findIdx?_eq_some_iff_getElem.mp h
  exact ⟨l[i], by simp [List.get?_eq_getElem?, List.getElem?_eq_getElem hlt], hp⟩

/-- C1: `processAction` on a road-building play whose second road is invalid
returns a failure result, yet the caller's input is left partially mutated:
the aliased view the caller retains has the road-building card already
removed from the hand and the first road already placed on the board — the
input game state is not left untouched on failure. -/
theorem claimC1_failed_road_building_mutates_input :
    (CatanRuleEngine.processAction oracleZero roadBuildingState
        roadBuildingAction).isFailure = true ∧
    (DevelopmentCardManager.playRoadBuildingCardAliased roadBuildingState "p1"
        (roadBuildingEdge1, roadBuildingEdge2)).1.isOk = false ∧
    (DevelopmentCardManager.playRoadBuildingCardAliased roadBuildingState "p1"
        (roadBuildingEdge1, roadBuildingEdge2)).2 ≠ roadBuildingState ∧
    ((DevelopmentCardManager.playRoadBuildingCardAliased roadBuildingState "p1"
        (roadBuildingEdge1, roadBuildingEdge2)).2.players.map
      (fun p => p.developmentCards.roadBuilding)) = [0, 0] ∧
    ((alistGet roadBuildingEdge1
        (DevelopmentCardManager.playRoadBuildingCardAliased roadBuildingState "p1"
          (roadBuildingEdge1, roadBuildingEdge2)).2.board.edges).map
      (fun e => e.road)) = some (some "p1") := by
  refine ⟨by decide, by decide, by decide, by decide, by decide⟩

/-- C2: running both setup rounds of a two-player game to completion (every
action succeeding) leaves the engine in `PRODUCTION` although player 1 was
never given a setup-round-2 turn (one settlement to player 2's two), and the
second settlement credited its owner no resources at all — player 2's hand is
empty even though their second settlement touches three resource-producing
tiles. -/
theorem claimC2_setup_round_two_skips_players_and_credits_nothing :
    (runActions newGameTwoPlayers setupTrace).map
      (fun s =>
        ( s.phase
        , s.players.map (fun p => p.buildings.settlements.length)
        , s.players.map (fun p => p.resources) )) =
    some (GamePhase.PRODUCTION, [1, 2], [⟨0, 0, 0, 0, 0⟩, ⟨0, 0, 0, 0, 0⟩]) := by
  decide

/-- C4 (counterexample): `BUY_DEVELOPMENT_CARD`, `TRADE_WITH_BANK` and
`TRADE_WITH_PLAYER` perform no turn check: player 2 is not the current player
(player 1 is), yet all three actions succeed for player 2, so the claim that
every listed turn-bound kind fails off turn is false. -/
theorem claimC4_off_turn_buy_and_trades_succeed :
    CatanRuleEngine.getCurrentPlayerId offTurnState = some "p1" ∧
    (CatanRuleEngine.processAction oracleZero offTurnState
        (.BUY_DEVELOPMENT_CARD "p2")).isSuccess = true ∧
    (CatanRuleEngine.processAction oracleZero offTurnState
        (.TRADE_WITH_BANK "p2" offTurnBankOffer)).isSuccess = true ∧
    (CatanRuleEngine.processAction oracleZero offTurnState
        (.TRADE_WITH_PLAYER "p2" offTurnPlayerOffer)).isSuccess = true := by
  refine ⟨by decide, by decide, by decide, by decide⟩

/-- The dev-card play gate is invalid whenever a non-victory-point card is
played by someone other than the current player. -/
theorem canPlayDevelopmentCard_off_turn_invalid (gs : GameState) (pid : String)
    (ct : DevelopmentCardType) (hct : ct ≠ DevelopmentCardType.victoryPoint)
    (h : CatanRuleEngine.getCurrentPlayerId gs ≠ some pid) :
    (DevelopmentCardManager.canPlayDevelopmentCard gs pid ct).valid = false := by
  unfold DevelopmentCardManager.canPlayDevelopmentCard
  cases hfind : gs.players.find? (fun p => p.id = pid) with
  | none => rfl
  | some player =>
      have h2 : ((gs.players.get? gs.currentPlayerIndex).map (fun p => p.id)) ≠
          some pid := h
      simp only []
      by_cases hz : DevelopmentCardManager.getCard player.developmentCards ct = 0
      · rw [if_pos hz]; rfl
      · rw [if_neg hz, if_pos]; · rfl
        simp [hct]
        intro x hx hEq
        apply h2
        rw [List.get?_eq_getElem?, hx]
        simp [hEq]

/-- The robber-move gate is invalid whenever the mover is not the current
player. -/
theorem canMoveRobber_off_turn_invalid (gs : GameState) (pid : String)
    (loc : HexCoordinate)
    (h : CatanRuleEngine.getCurrentPlayerId gs ≠ some pid) :
    (RobberManager.canMoveRobber gs pid loc).valid = false := by
  unfold RobberManager.canMoveRobber
  cases hfind : gs.players.find? (fun p => p.id = pid) with
  | none => rfl
  | some player =>
      have h2 : ((gs.players.get? gs.currentPlayerIndex).map (fun p => p.id)) ≠
          some pid := h
      simp only []
      rw [if_pos h2]
      rfl

/-- C4 (amended): for every turn-guarded action kind — `ROLL_DICE`,
`BUILD_ROAD`, `BUILD_SETTLEMENT`, `BUILD_CITY`, `MOVE_ROBBER`, `END_TURN`,
and `PLAY_DEVELOPMENT_CARD` of a non-victory-point kind — an acting player
other than the current player always gets a failure result from
`processAction`.  (`BUY_DEVELOPMENT_CARD`, `TRADE_WITH_BANK` and
`TRADE_WITH_PLAYER` are not turn-guarded; see the counterexample.) -/
theorem claimC4_turn_guarded_kinds_fail_off_turn (o : Oracle) (gs : GameState)
    (a : GameAction) (hguard : turnGuarded a = true)
    (hturn : CatanRuleEngine.getCurrentPlayerId gs ≠ some a.playerId) :
    (CatanRuleEngine.processAction o gs a).isFailure = true := by
  have turnCheck :
      ∀ (α : Type) (k : Player → Except String α) (e : String),
        (match gs.players.get? gs.currentPlayerIndex with
          | none => Except.error ("TypeError")
          | some cur => if cur.id ≠ a.playerId then Except.error e else k cur).isOk
          = false := by
    intro α k e
    cases hcur : gs.players.get? gs.currentPlayerIndex with
    | none => rfl
    | some cur =>
        have hne : cur.id ≠ a.playerId := by
          intro hEq
          have hcpid : CatanRuleEngine.getCurrentPlayerId gs = some a.playerId := by
            unfold CatanRuleEngine.getCurrentPlayerId
            rw [hcur]
            simp [hEq]
          exact hturn hcpid
        simp only [if_pos hne]
        rfl
  cases a with
  | ROLL_DICE pid =>
      show (CatanRuleEngine.processAction o gs (.ROLL_DICE pid)).isFailure = true
      unfold CatanRuleEngine.processAction
      simp only []
      have : (CatanRuleEngine.handleRollDice o gs pid).isOk = false := by
        unfold CatanRuleEngine.handleRollDice
        by_cases hp : gs.phase ≠ GamePhase.PRODUCTION
        · rw [if_pos hp]; rfl
        · rw [if_neg hp]
          exact turnCheck GameState _ _
      cases hd : CatanRuleEngine.handleRollDice o gs pid with
      | error e => rfl
      | ok s => rw [hd] at this; exact Bool.noConfusion this
  | BUILD_ROAD pid edgeId =>
      show (CatanRuleEngine.processAction o gs (.BUILD_ROAD pid edgeId)).isFailure = true
      unfold CatanRuleEngine.processAction
      simp only []
      have : (CatanRuleEngine.handleBuildRoad gs pid edgeId).isOk = false := by
        unfold CatanRuleEngine.handleBuildRoad
        exact turnCheck GameState _ _
      cases hd : CatanRuleEngine.handleBuildRoad gs pid edgeId with
      | error e => rfl
      | ok s => rw [hd] at this; exact Bool.noConfusion this
  | BUILD_SETTLEMENT pid iid =>
      show (CatanRuleEngine.processAction o gs (.BUILD_SETTLEMENT pid iid)).isFailure = true
      unfold CatanRuleEngine.processAction
      simp only []
      have : (CatanRuleEngine.handleBuildSettlement gs pid iid).isOk = false := by
        unfold CatanRuleEngine.handleBuildSettlement
        exact turnCheck GameState _ _
      cases hd : CatanRuleEngine.handleBuildSettlement gs pid iid with
      | error e => rfl
      | ok s => rw [hd] at this; exact Bool.noConfusion this
  | BUILD_CITY pid iid =>
      show (CatanRuleEngine.processAction o gs (.BUILD_CITY pid iid)).isFailure = true
      unfold CatanRuleEngine.processAction
      simp only []
      have : (CatanRuleEngine.handleBuildCity gs pid iid).isOk = false := by
        unfold CatanRuleEngine.handleBuildCity
        exact turnCheck GameState _ _
      cases hd : CatanRuleEngine.handleBuildCity gs pid iid with
      | error e => rfl
      | ok s => rw [hd] at this; exact Bool.noConfusion this
  | END_TURN pid =>
      show (CatanRuleEngine.processAction o gs (.END_TURN pid)).isFailure = true
      unfold CatanRuleEngine.processAction
      simp only []
      have : (CatanRuleEngine.handleEndTurn gs pid).isOk = false := by
        unfold CatanRuleEngine.handleEndTurn
        exact turnCheck GameState _ _
      cases hd : CatanRuleEngine.handleEndTurn gs pid with
      | error e => rfl
      | ok s => rw [hd] at this; exact Bool.noConfusion this
  | MOVE_ROBBER pid loc tgt =>
      show (CatanRuleEngine.processAction o gs (.MOVE_ROBBER pid loc tgt)).isFailure = true
      unfold CatanRuleEngine.processAction
      simp only []
      have hv := canMoveRobber_off_turn_invalid gs pid loc hturn
      have : (CatanRuleEngine.handleMoveRobber o gs pid loc tgt).isOk = false := by
        unfold CatanRuleEngine.handleMoveRobber RobberManager.moveRobber
        simp only [hv]
        rfl
      cases hd : CatanRuleEngine.handleMoveRobber o gs pid loc tgt with
      | error e => rfl
      | ok s => rw [hd] at this; exact Bool.noConfusion this
  | PLAY_DEVELOPMENT_CARD pid card =>
      show (CatanRuleEngine.processAction o gs (.PLAY_DEVELOPMENT_CARD pid card)).isFailure
        = true
      unfold CatanRuleEngine.processAction
      simp only []
      have key : (CatanRuleEngine.handlePlayDevelopmentCard o gs pid card).isOk = false := by
        cases card with
        | knight loc tgt =>
            have hv := canPlayDevelopmentCard_off_turn_invalid gs pid .knight (by decide) hturn
            unfold CatanRuleEngine.handlePlayDevelopmentCard
              DevelopmentCardManager.playKnightCard
            simp only [hv]
            rfl
        | roadBuilding edgeIds =>
            have hv := canPlayDevelopmentCard_off_turn_invalid gs pid .roadBuilding
              (by decide) hturn
            unfold CatanRuleEngine.handlePlayDevelopmentCard
              DevelopmentCardManager.playRoadBuildingCard
            simp only [hv]
            rfl
        | invention resources =>
            have hv := canPlayDevelopmentCard_off_turn_invalid gs pid .invention
              (by decide) hturn
            unfold CatanRuleEngine.handlePlayDevelopmentCard
              DevelopmentCardManager.playInventionCard
            simp only [hv]
            rfl
        | monopoly rt =>
            have hv := canPlayDevelopmentCard_off_turn_invalid gs pid .monopoly
              (by decide) hturn
            unfold CatanRuleEngine.handlePlayDevelopmentCard
              DevelopmentCardManager.playMonopolyCard
            simp only [hv]
            rfl
        | victoryPoint => exact absurd hguard (by simp [turnGuarded])
      cases hd : CatanRuleEngine.handlePlayDevelopmentCard o gs pid card with
      | error e => rfl
      | ok s => rw [hd] at key; exact Bool.noConfusion key
  | BUY_DEVELOPMENT_CARD pid => exact absurd hguard (by simp [turnGuarded])
  | TRADE_WITH_PLAYER pid offer => exact absurd hguard (by simp [turnGuarded])
  | TRADE_WITH_BANK pid offer => exact absurd hguard (by simp [turnGuarded])
  | DISCARD_RESOURCES pid r => exact absurd hguard (by simp [turnGuarded])

/-- Witness for the amended C4 theorem at a concrete input: player 2 ending
player 1's turn is rejected. -/
theorem claimC4_witness :
    (CatanRuleEngine.processAction oracleZero offTurnState
        (.END_TURN "p2")).isFailure = true :=
  claimC4_turn_guarded_kinds_fail_off_turn oracleZero offTurnState
    (.END_TURN "p2") (by decide) (by decide)

/-- C10: a player-to-player trade validates only the initiator's side — when
the initiator holds the offered resources and both players exist,
`executeTrade` succeeds no matter what the counterpart holds; and on the
concrete clamped trade (1 wood for 2 brick against an empty hand) the total
number of resource units across all players changes from 1 to 3. -/
theorem claimC10_player_trade_ignores_counterpart :
    (∀ (gs : GameState) (offer : TradeOffer) (tid : String) (fromPlayer : Player),
      offer.toPlayerId = some tid →
      gs.players.find? (fun p => p.id = offer.fromPlayerId) = some fromPlayer →
      (gs.players.find? (fun p => p.id = tid)).isSome = true →
      ResourceManager.hasResources fromPlayer.resources offer.offering = true →
      (TradingManager.executeTrade gs offer).isOk = true) ∧
    (TradingManager.executeTrade clampTradeState clampTradeOffer).isOk = true ∧
    ((TradingManager.executeTrade clampTradeState clampTradeOffer).toOption.map
      totalAllResources) = some 3 ∧
    totalAllResources clampTradeState = 1 := by
  refine ⟨?_, by decide, by decide, by decide⟩
  intro gs offer tid fromPlayer htid hfind htp hres
  have hvalid : (TradingManager.validatePlayerTrade gs offer).valid = true := by
    unfold TradingManager.validatePlayerTrade
    rw [hfind]
    obtain ⟨tp, htp2⟩ := Option.isSome_iff_exists.mp htp
    simp [htid, htp2, hres, Validation.ok]
  unfold TradingManager.executeTrade
  simp [hvalid, htid, Except.isOk, Except.toBool]

/-- Witness for the universal part of C10 at a concrete input. -/
theorem claimC10_witness :
    (TradingManager.executeTrade clampTradeState clampTradeOffer).isOk = true :=
  claimC10_player_trade_ignores_counterpart.1 clampTradeState clampTradeOffer
    "p2" (clampTradeState.players.get ⟨0, by decide⟩) (by decide) (by decide)
    (by decide) (by decide)

/-- C6: once the per-turn lock is set (`canPlayDevCard = false`, as
`buyDevelopmentCard` leaves it), a victory-point card the player holds is
still playable — the gate ignores both the lock and whose turn it is — while
every other card kind is rejected; `buyDevelopmentCard` is what sets the
lock, and the end-turn reset (`resetPlayDevCardFlag`) lifts it for every
player. -/
theorem claimC6_victory_point_card_exempt_from_lock :
    (∀ (gs : GameState) (pid : String) (player : Player),
      gs.players.find? (fun p => p.id = pid) = some player →
      player.canPlayDevCard = false →
      ((0 < player.developmentCards.victoryPoint →
          ∃ s2, DevelopmentCardManager.playVictoryPointCard gs pid = Except.ok s2) ∧
        (∀ ct, ct ≠ DevelopmentCardType.victoryPoint →
          (DevelopmentCardManager.canPlayDevelopmentCard gs pid ct).valid = false))) ∧
    (∀ (gs : GameState) (pid : String) (i : Nat) (s2 : GameState),
      DevelopmentCardManager.buyDevelopmentCard gs pid = Except.ok s2 →
      gs.players.findIdx? (fun p => p.id = pid) = some i →
      (s2.players.get? i).map (fun p => p.canPlayDevCard) = some false) ∧
    (∀ gs : GameState,
      (DevelopmentCardManager.resetPlayDevCardFlag gs).players =
        gs.players.map (fun p => { p with canPlayDevCard := true })) := by
  refine ⟨?_, ?_, fun gs => rfl⟩
  · intro gs pid player hfind hlock
    have hvalid : (DevelopmentCardManager.canPlayDevelopmentCard gs pid
        DevelopmentCardType.victoryPoint).valid = true ∨
        player.developmentCards.victoryPoint = 0 := by
      by_cases hz : player.developmentCards.victoryPoint = 0
      · exact Or.inr hz
      · refine Or.inl ?_
        unfold DevelopmentCardManager.canPlayDevelopmentCard
        rw [hfind]
        simp only [DevelopmentCardManager.getCard]
        rw [if_neg hz]
        simp [Validation.ok]
    constructor
    · intro hpos
      have hz : ¬ player.developmentCards.victoryPoint = 0 := by omega
      have hv : (DevelopmentCardManager.canPlayDevelopmentCard gs pid
          DevelopmentCardType.victoryPoint).valid = true := by
        rcases hvalid with h | h
        · exact h
        · exact absurd h hz
      cases hres : DevelopmentCardManager.playVictoryPointCard gs pid with
      | ok s2 => exact ⟨s2, rfl⟩
      | error e =>
          exfalso
          unfold DevelopmentCardManager.playVictoryPointCard at hres
          simp only [hv, Bool.not_true, Bool.false_eq_true, if_false] at hres
          simp at hres
    · intro ct hct
      unfold DevelopmentCardManager.canPlayDevelopmentCard
      rw [hfind]
      simp only []
      by_cases hz : DevelopmentCardManager.getCard player.developmentCards ct = 0
      · rw [if_pos hz]; rfl
      · rw [if_neg hz]
        by_cases hturn : (decide (ct ≠ DevelopmentCardType.victoryPoint) &&
            decide (Option.map (fun p => p.id)
              (gs.players.get? gs.currentPlayerIndex) ≠ some pid)) = true
        · rw [if_pos hturn]; rfl
        · rw [if_neg hturn, if_pos]; · rfl
          simp [hlock, hct]
  · intro gs pid i s2 hbuy hidx
    unfold DevelopmentCardManager.buyDevelopmentCard at hbuy
    by_cases hv : (DevelopmentCardManager.canBuyDevelopmentCard gs pid).valid = true
    · simp only [hv, Bool.not_true, Bool.false_eq_true, if_false] at hbuy
      cases hpop : listPopLast gs.developmentCardDeck with
      | none => rw [hpop] at hbuy; simp at hbuy
      | some pair =>
          obtain ⟨drawnCard, rest⟩ := pair
          rw [hpop] at hbuy
          injection hbuy with h2
          subst h2
          simp only []
          rw [hidx]
          simp only [Option.getD_some]
          have hlt : i < gs.players.length := findIdx?_lt_length hidx
          have hp0 : gs.players.get? i = some (gs.players[i]) := by
            rw [List.get?_eq_getElem?]
            exact List.getElem?_eq_getElem hlt
          rw [listModify_get?_self, hp0]
          rfl
    · have hv2 : (DevelopmentCardManager.canBuyDevelopmentCard gs pid).valid = false := by
        revert hv
        cases (DevelopmentCardManager.canBuyDevelopmentCard gs pid).valid <;> simp
      simp only [hv2, Bool.not_false, if_true] at hbuy
      simp at hbuy

theorem foldl_congr_fun {l : List β} {f g : α → β → α}
    (h : ∀ a b, b ∈ l → f a b = g a b) (a : α) : l.foldl f a = l.foldl g a := by
  induction l generalizing a with
  | nil => rfl
  | cons x xs ih =>
      rw [List.foldl_cons, List.foldl_cons, h a x (List.mem_cons_self x xs)]
      exact ih (fun a b hb => h a b (List.mem_cons_of_mem x hb)) _

theorem filter_length_lt_of_flip {l : List γ} {p q : γ → Bool} {x : γ}
    (hx : x ∈ l) (hqx : q x = true) (hpx : p x = false)
    (himp : ∀ y, p y = true → q y = true) :
    (l.filter p).length < (l.filter q).length := by
  induction l with
  | nil => cases hx
  | cons y ys ih =>
      rcases List.mem_cons.mp hx with rfl | hmem
      · have hle : (ys.filter p).length ≤ (ys.filter q).length :=
          (List.monotone_filter_right ys himp).length_le
        rw [List.filter_cons, List.filter_cons, if_pos hqx,
          if_neg (by simp [hpx])]
        simp only [List.length_cons]
        omega
      · rw [List.filter_cons, List.filter_cons]
        cases hpy : p y with
        | true =>
            rw [himp y hpy]
            simpa using ih hmem
        | false =>
            cases hqy : q y with
            | true =>
                simp only [if_true, if_false, List.length_cons]
                exact Nat.lt_succ_of_lt (ih hmem)
            | false => simpa using ih hmem

theorem alistGet_eq_none_of_not_mem_keys [DecidableEq κ] {k : κ}
    {l : List (κ × α)} (h : k ∉ alistKeys l) : alistGet k l = none := by
  unfold alistGet
  rw [List.find?_eq_none.mpr]
  · rfl
  · intro p hp
    simp only [decide_eq_true_eq]
    intro hk
    exact h (by simpa [alistKeys, hk] using List.mem_map_of_mem (fun q => q.1) hp)

/-- The depth-first search is insensitive to its recursion budget as long as
the budget exceeds the number of graph vertices not yet on the path stack:
the recursion always terminates within that bound. -/
theorem dfs_fuel_stable (g : List (EdgeId × List EdgeId)) :
    ∀ (m : Nat) (cur : EdgeId) (vis : List EdgeId) (f1 f2 : Nat),
      ((alistKeys g).filter (fun k => !vis.contains k)).length ≤ m →
      vis.contains cur = false →
      m < f1 → m < f2 →
      VictoryManager.depthFirstSearchLongestPath g f1 cur vis =
        VictoryManager.depthFirstSearchLongestPath g f2 cur vis := by
  intro m
  induction m with
  | zero =>
      intro cur vis f1 f2 hbound hcur hf1 hf2
      obtain ⟨a, rfl⟩ := Nat.exists_eq_succ_of_ne_zero (by omega : f1 ≠ 0)
      obtain ⟨b, rfl⟩ := Nat.exists_eq_succ_of_ne_zero (by omega : f2 ≠ 0)
      have hget : alistGet cur g = none := by
        apply alistGet_eq_none_of_not_mem_keys
        intro hmem
        have hfil : cur ∈ (alistKeys g).filter (fun k => !vis.contains k) :=
          List.mem_filter.mpr ⟨hmem, by simp only [hcur, Bool.not_false]⟩
        rw [List.length_eq_zero.mp (Nat.le_zero.mp hbound)] at hfil
        cases hfil
      simp [VictoryManager.depthFirstSearchLongestPath, hget]
  | succ m ih =>
      intro cur vis f1 f2 hbound hcur hf1 hf2
      obtain ⟨a, rfl⟩ := Nat.exists_eq_succ_of_ne_zero (by omega : f1 ≠ 0)
      obtain ⟨b, rfl⟩ := Nat.exists_eq_succ_of_ne_zero (by omega : f2 ≠ 0)
      by_cases hmem : cur ∈ alistKeys g
      · have hdrop : ((alistKeys g).filter
            (fun k => !(cur :: vis).contains k)).length ≤ m := by
          have hlt : ((alistKeys g).filter (fun k => !(cur :: vis).contains k)).length <
              ((alistKeys g).filter (fun k => !vis.contains k)).length := by
            refine filter_length_lt_of_flip hmem ?_ ?_ ?_
            · simp only [hcur, Bool.not_false]
            · simp [List.contains_cons]
            · intro y hy
              cases hvy : vis.contains y with
              | false => simp only [hvy, Bool.not_false]
              | true =>
                  exfalso
                  rw [List.contains_cons, hvy] at hy
                  simp at hy
          omega
        simp only [VictoryManager.depthFirstSearchLongestPath]
        congr 1
        apply foldl_congr_fun
        intro acc n hn
        by_cases hc : (cur :: vis).contains n = true
        · rw [if_pos hc, if_pos hc]
        · have hc2 : (cur :: vis).contains n = false := by
            revert hc; cases (cur :: vis).contains n <;> simp
          rw [if_neg hc, if_neg hc]
          rw [ih n (cur :: vis) a b hdrop hc2 (Nat.lt_of_succ_lt_succ hf1)
            (Nat.lt_of_succ_lt_succ hf2)]
      · have hget : alistGet cur g = none := alistGet_eq_none_of_not_mem_keys hmem
        simp [VictoryManager.depthFirstSearchLongestPath, hget]

/-- C9: the longest-road computation is total — the depth-first
longest-simple-path search needs no more recursion depth than the number of
road-graph vertices, so `calculateLongestRoadLength` (which runs it with
budget `graph size + 1`) equals the search at every larger budget: for every
game state and player the backtracking search terminates with a well-defined
result. -/
theorem claimC9_longest_road_search_terminates (gs : GameState) (pid : String)
    (fuel : Nat) (h : (VictoryManager.playerRoadGraph gs pid).length < fuel) :
    VictoryManager.calculateLongestRoadLengthWithFuel gs pid fuel =
      VictoryManager.calculateLongestRoadLength gs pid := by
  unfold VictoryManager.calculateLongestRoadLength
  unfold VictoryManager.calculateLongestRoadLengthWithFuel
  unfold VictoryManager.playerRoadGraph at h ⊢
  cases hf : gs.players.find? (fun p => p.id = pid) with
  | none => rfl
  | some player =>
      rw [hf] at h
      simp only []
      by_cases hz : player.buildings.roads.length = 0
      · rw [if_pos hz, if_pos hz]
      · rw [if_neg hz, if_neg hz]
        apply foldl_congr_fun
        intro acc roadId hmem
        congr 1
        have hkeys : ((alistKeys (VictoryManager.buildRoadGraph gs
            player.buildings.roads)).filter (fun k => !([] : List EdgeId).contains k)).length =
            (VictoryManager.buildRoadGraph gs player.buildings.roads).length := by
          simp [alistKeys]
        exact dfs_fuel_stable _ _ roadId [] fuel _ (le_of_eq hkeys) rfl h
          (by omega)

/-- Witness for C9: on a fresh game the budgeted search at any larger budget
agrees with the engine's value. -/
theorem claimC9_witness :
    VictoryManager.calculateLongestRoadLengthWithFuel newGameTwoPlayers "p1" 50 =
      VictoryManager.calculateLongestRoadLength newGameTwoPlayers "p1" :=
  claimC9_longest_road_search_terminates newGameTwoPlayers "p1" 50 (by decide)

/-- Witness for C6: in a concrete locked state, a knight card the player holds
is rejected by the gate. -/
theorem claimC6_witness :
    (DevelopmentCardManager.canPlayDevelopmentCard lockedVpState "p1"
        DevelopmentCardType.knight).valid = false :=
  ((claimC6_victory_point_card_exempt_from_lock.1 lockedVpState "p1"
      (lockedVpState.players.get ⟨0, by decide⟩) (by decide) (by decide)).2
    DevelopmentCardType.knight (by decide))

theorem foldl_append_filterMap (f : β → Option γ) :
    ∀ (L : List β) (acc : List γ),
      L.foldl (fun acc b => acc ++ (f b).toList) acc = acc ++ L.filterMap f := by
  intro L
  induction L with
  | nil => intro acc; simp
  | cons x xs ih =>
      intro acc
      rw [List.foldl_cons, List.filterMap_cons]
      cases hfx : f x with
      | none => simpa using ih acc
      | some c =>
          rw [show Option.toList (some c) = [c] from rfl, ih (acc ++ [c])]
          simp

theorem getAccessiblePorts_eq (gs : GameState) (pid : String) (player : Player)
    (hfind : gs.players.find? (fun p => p.id = pid) = some player) :
    TradingManager.getAccessiblePorts gs pid = accessiblePortsSpec gs player := by
  simp only [TradingManager.getAccessiblePorts, accessiblePortsSpec, hfind]
  have hstep :
      (player.buildings.settlements ++ player.buildings.cities).foldl
        (fun accessiblePorts intersectionId =>
          match alistGet intersectionId gs.board.intersections with
          | some inter =>
              match inter.port with
              | some port => accessiblePorts ++ [port]
              | none => accessiblePorts
          | none => accessiblePorts) [] =
      (player.buildings.settlements ++ player.buildings.cities).foldl
        (fun acc iid =>
          acc ++ ((alistGet iid gs.board.intersections).bind (fun i => i.port)).toList)
        [] := by
    apply foldl_congr_fun
    intro acc iid _
    cases hg : alistGet iid gs.board.intersections with
    | none => simp
    | some inter =>
        show (match inter.port with
          | some port => acc ++ [port]
          | none => acc) = acc ++ ((some inter).bind (fun i => i.port)).toList
        cases hp : inter.port with
        | none => simp [hp]
        | some port => simp [hp]
  rw [hstep]
  have hfold := foldl_append_filterMap
    (fun iid => (alistGet iid gs.board.intersections).bind (fun i => i.port))
    (player.buildings.settlements ++ player.buildings.cities) []
  rw [List.nil_append] at hfold
  exact hfold

theorem alistGet_mem [DecidableEq κ] {k : κ} {l : List (κ × α)} {v : α}
    (h : alistGet k l = some v) : ∃ p ∈ l, p.2 = v := by
  unfold alistGet at h
  cases hf : l.find? (fun p => p.1 = k) with
  | none => rw [hf] at h; cases h
  | some pr =>
      rw [hf] at h
      exact ⟨pr, List.mem_of_find?_eq_some hf, by simpa using h⟩

/-- Every accessible port of a player satisfies the standard-ratio bound. -/
theorem accessiblePorts_ratio (gs : GameState) (player : Player)
    (hports : standardPortRatios gs.board) :
    ∀ p ∈ accessiblePortsSpec gs player,
      (p.type = none → p.ratio = 3) ∧ (∀ rt, p.type = some rt → p.ratio = 2) := by
  intro p hp
  obtain ⟨iid, -, hbind⟩ := List.mem_filterMap.mp hp
  obtain ⟨inter, hget, hport⟩ := Option.bind_eq_some.mp hbind
  obtain ⟨entry, hentry, hsnd⟩ := alistGet_mem hget
  have hb := List.all_eq_true.mp hports entry hentry
  rw [hsnd, hport] at hb
  have hb2 : decide (p.ratio =
      (match p.type with | none => 3 | some _ => 2)) = true := hb
  have hb3 : p.ratio = (match p.type with | none => 3 | some _ => 2) :=
    of_decide_eq_true hb2
  constructor
  · intro ht; rw [ht] at hb3; exact hb3
  · intro rt ht; rw [ht] at hb3; exact hb3

theorem specificPort_iff (gs : GameState) (player : Player) (rt : ResourceType) :
    buildingOnSpecificPort gs player rt = true ↔
      ∃ p ∈ accessiblePortsSpec gs player, p.type = some rt := by
  unfold buildingOnSpecificPort accessiblePortsSpec
  rw [List.any_eq_true]
  constructor
  · rintro ⟨iid, hiid, hmatch⟩
    cases hg : alistGet iid gs.board.intersections with
    | none => rw [hg] at hmatch; cases hmatch
    | some inter =>
        rw [hg] at hmatch
        have hmatch2 : (match inter.port with
            | some port => decide (port.type = some rt)
            | none => false) = true := hmatch
        cases hp : inter.port with
        | none => rw [hp] at hmatch2; cases hmatch2
        | some port =>
            rw [hp] at hmatch2
            refine ⟨port, List.mem_filterMap.mpr ⟨iid, hiid, ?_⟩, by simpa using hmatch2⟩
            rw [hg]
            simp [hp]
  · rintro ⟨p, hp, htype⟩
    obtain ⟨iid, hiid, hbind⟩ := List.mem_filterMap.mp hp
    obtain ⟨inter, hget, hport⟩ := Option.bind_eq_some.mp hbind
    refine ⟨iid, hiid, ?_⟩
    rw [hget]
    show (match inter.port with
      | some port => decide (port.type = some rt)
      | none => false) = true
    rw [hport]
    simpa using htype

theorem genericPort_iff (gs : GameState) (player : Player) :
    buildingOnGenericPort gs player = true ↔
      ∃ p ∈ accessiblePortsSpec gs player, p.type = none := by
  unfold buildingOnGenericPort accessiblePortsSpec
  rw [List.any_eq_true]
  constructor
  · rintro ⟨iid, hiid, hmatch⟩
    cases hg : alistGet iid gs.board.intersections with
    | none => rw [hg] at hmatch; cases hmatch
    | some inter =>
        rw [hg] at hmatch
        have hmatch2 : (match inter.port with
            | some port => decide (port.type = none)
            | none => false) = true := hmatch
        cases hp : inter.port with
        | none => rw [hp] at hmatch2; cases hmatch2
        | some port =>
            rw [hp] at hmatch2
            refine ⟨port, List.mem_filterMap.mpr ⟨iid, hiid, ?_⟩, by simpa using hmatch2⟩
            rw [hg]
            simp [hp]
  · rintro ⟨p, hp, htype⟩
    obtain ⟨iid, hiid, hbind⟩ := List.mem_filterMap.mp hp
    obtain ⟨inter, hget, hport⟩ := Option.bind_eq_some.mp hbind
    refine ⟨iid, hiid, ?_⟩
    rw [hget]
    show (match inter.port with
      | some port => decide (port.type = none)
      | none => false) = true
    rw [hport]
    simpa using htype

theorem foldl_min_const3 (l : List Port) (b : Int)
    (h : ∀ p ∈ l, p.ratio = 3) :
    l.foldl (fun best port => min best port.ratio) b =
      if l.isEmpty then b else min b 3 := by
  induction l generalizing b with
  | nil => rfl
  | cons x xs ih =>
      rw [List.foldl_cons, h x (List.mem_cons_self x xs)]
      rw [ih (min b 3) (fun p hp => h p (List.mem_cons_of_mem x hp))]
      cases hxs : xs.isEmpty <;> simp [List.isEmpty_cons, min_assoc]

theorem getBestTradeRatio_eq_spec (gs : GameState) (player : Player)
    (rt : ResourceType) (hports : standardPortRatios gs.board) :
    TradingManager.getBestTradeRatio (accessiblePortsSpec gs player) rt =
      specTradeRatio gs player rt := by
  unfold TradingManager.getBestTradeRatio specTradeRatio
  have hall := accessiblePorts_ratio gs player hports
  have hgen : ∀ p ∈ (accessiblePortsSpec gs player).filter
      (fun port => decide (port.type = none)), p.ratio = 3 := by
    intro p hp
    obtain ⟨hmem, htype⟩ := List.mem_filter.mp hp
    exact (hall p hmem).1 (by simpa using htype)
  have hgeniff : buildingOnGenericPort gs player = true ↔
      ((accessiblePortsSpec gs player).filter
        (fun port => decide (port.type = none))).isEmpty = false := by
    rw [genericPort_iff gs player]
    constructor
    · rintro ⟨p, hp, ht⟩
      have hmemf : p ∈ (accessiblePortsSpec gs player).filter
          (fun port => decide (port.type = none)) :=
        List.mem_filter.mpr ⟨hp, by simp [ht]⟩
      cases hemp : ((accessiblePortsSpec gs player).filter
          (fun port => decide (port.type = none))).isEmpty with
      | false => rfl
      | true => rw [List.isEmpty_iff.mp hemp] at hmemf; cases hmemf
    · intro hemp
      have hne : (accessiblePortsSpec gs player).filter
          (fun port => decide (port.type = none)) ≠ [] := by
        intro hnil
        rw [hnil] at hemp
        cases hemp
      obtain ⟨p, hp⟩ := List.exists_mem_of_ne_nil _ hne
      obtain ⟨hmem2, htype2⟩ := List.mem_filter.mp hp
      exact ⟨p, hmem2, by simpa using htype2⟩
  rw [foldl_min_const3 _ _ hgen]
  cases hfind : (accessiblePortsSpec gs player).find?
      (fun port => decide (port.type = some rt)) with
  | some sp =>
      have hmem := List.mem_of_find?_eq_some hfind
      have htype : sp.type = some rt := by
        have := List.find?_some hfind
        simpa using this
      have hratio : sp.ratio = 2 := (hall sp hmem).2 rt htype
      have hspec : buildingOnSpecificPort gs player rt = true :=
        (specificPort_iff gs player rt).mpr ⟨sp, hmem, htype⟩
      have hred : (match some sp with
          | some specificPort => min (4 : Int) specificPort.ratio
          | none => (4 : Int)) = min 4 sp.ratio := rfl
      rw [hred, hratio, hspec]
      cases hemp : ((accessiblePortsSpec gs player).filter
          (fun port => decide (port.type = none))).isEmpty with
      | true =>
          have hnogen : buildingOnGenericPort gs player = false := by
            cases hbg : buildingOnGenericPort gs player with
            | false => rfl
            | true => rw [hgeniff.mp hbg] at hemp; cases hemp
          rw [hnogen]
          decide
      | false =>
          have hhasgen : buildingOnGenericPort gs player = true :=
            hgeniff.mpr hemp
          rw [hhasgen]
          decide
  | none =>
      have hnospec : buildingOnSpecificPort gs player rt = false := by
        cases hbs : buildingOnSpecificPort gs player rt with
        | false => rfl
        | true =>
            obtain ⟨p, hp, ht⟩ := (specificPort_iff gs player rt).mp hbs
            have := List.find?_eq_none.mp hfind p hp
            simp [ht] at this
      have hred : (match (none : Option Port) with
          | some specificPort => min (4 : Int) specificPort.ratio
          | none => (4 : Int)) = (4 : Int) := rfl
      rw [hred, hnospec]
      cases hemp : ((accessiblePortsSpec gs player).filter
          (fun port => decide (port.type = none))).isEmpty with
      | true =>
          have hnogen : buildingOnGenericPort gs player = false := by
            cases hbg : buildingOnGenericPort gs player with
            | false => rfl
            | true => rw [hgeniff.mp hbg] at hemp; cases hemp
          rw [hnogen]
          decide
      | false =>
          have hhasgen : buildingOnGenericPort gs player = true :=
            hgeniff.mpr hemp
          rw [hhasgen]
          decide

theorem positiveEntries_eq_map (r : Resources) :
    TradingManager.positiveEntries r =
      (offeredKinds r).map (fun rt => (rt, ResourceManager.getOne r rt)) := by
  rw [show TradingManager.positiveEntries r =
      (([ ResourceType.wood, ResourceType.brick, ResourceType.wool
        , ResourceType.wheat, ResourceType.ore ]).map
        (fun rt => (rt, ResourceManager.getOne r rt))).filter
        (fun e => decide (e.2 > 0)) from rfl]
  rw [List.filter_map]
  rfl

/-- C5: with a player who holds the offered resources on a board whose ports
carry the standard ratios, `validateBankTrade` accepts an offer exactly when
it names one offered kind and one requested kind and offers at least
ratio × requested, where ratio is the spec's minimum of 4, 3 with any
generic-port building, and 2 with the matching specific-port building. -/
theorem claimC5_bank_trade_validation_iff (gs : GameState) (offer : TradeOffer)
    (player : Player)
    (hfind : gs.players.find? (fun p => p.id = offer.fromPlayerId) = some player)
    (hres : ResourceManager.hasResources player.resources offer.offering = true)
    (hports : standardPortRatios gs.board) :
    (TradingManager.validateBankTrade gs offer).valid = true ↔
      bankTradeAllowedSpec gs player offer := by
  unfold TradingManager.validateBankTrade bankTradeAllowedSpec
  rw [hfind]
  simp only [hres, Bool.not_true, Bool.false_eq_true, if_false]
  rw [getAccessiblePorts_eq gs offer.fromPlayerId player hfind]
  rw [positiveEntries_eq_map offer.offering, positiveEntries_eq_map offer.requesting]
  cases hoff : offeredKinds offer.offering with
  | nil => simp [Validation.fail]
  | cons a as =>
      cases as with
      | cons a2 as2 => simp [Validation.fail]
      | nil =>
          cases hreq : offeredKinds offer.requesting with
          | nil => simp [Validation.fail]
          | cons b bs =>
              cases bs with
              | cons b2 bs2 => simp [Validation.fail]
              | nil =>
                  simp only [List.map_cons, List.map_nil, List.length_cons,
                    List.length_nil]
                  rw [getBestTradeRatio_eq_spec gs player a hports]
                  by_cases hlt : ResourceManager.getOne offer.offering a <
                      specTradeRatio gs player a * ResourceManager.getOne offer.requesting b
                  · simp [hlt, Validation.fail, not_le.mpr hlt]
                  · simp [hlt, Validation.ok, not_lt.mp hlt]

/-- Witness for C5: a concrete 4-wood-for-1-brick bank offer with no ports is
accepted, so the spec-side condition holds at that input. -/
theorem claimC5_witness :
    bankTradeAllowedSpec offTurnState
      (offTurnState.players.get ⟨1, by decide⟩) offTurnBankOffer :=
  (claimC5_bank_trade_validation_iff offTurnState offTurnBankOffer
      (offTurnState.players.get ⟨1, by decide⟩) (by decide) (by decide)
      (by decide)).mp (by decide)

theorem listModify_map_id (g : α → γ) (f : α → α) (hf : ∀ x, g (f x) = g x) :
    ∀ (i : Nat) (l : List α), (listModify i f l).map g = l.map g := by
  intro i l
  induction l generalizing i with
  | nil => cases i <;> rfl
  | cons x xs ih =>
      cases i with
      | zero => simp [listModify, hf]
      | succ n => simp [listModify, ih n]

theorem resources_plus_zero (r : Resources) :
    Resources.plus r ⟨0, 0, 0, 0, 0⟩ = r := by
  simp [Resources.plus]

theorem addOne_plus_shift (a b : Resources) (rt : ResourceType) (amt : Int) :
    ResourceManager.addOne (Resources.plus a b) rt amt =
      Resources.plus a (ResourceManager.addOne b rt amt) := by
  cases rt <;> simp [ResourceManager.addOne, Resources.plus, Int.add_assoc]

theorem creditStepRes_shift (c : HexCoordinate) (rt : ResourceType)
    (ids : List String) (i : Nat) (a b : Resources) (inter : Intersection) :
    creditStepRes c rt ids i (Resources.plus a b) inter =
      Resources.plus a (creditStepRes c rt ids i b inter) := by
  unfold creditStepRes
  cases inter.building with
  | none => rfl
  | some bld =>
      simp only []
      by_cases hadj : (inter.hexes.any (fun h => h.q = c.q && h.r = c.r)) = true
      · rw [if_pos hadj, if_pos hadj]
        cases ids.findIdx? (fun s => s = bld.playerId) with
        | none => rfl
        | some j =>
            simp only []
            by_cases hj : j = i
            · rw [if_pos hj, if_pos hj, addOne_plus_shift]
            · rw [if_neg hj, if_neg hj]
      · rw [if_neg hadj, if_neg hadj]

theorem foldl_plus_shift {σ : Resources → β → Resources}
    (hshift : ∀ a b x, σ (Resources.plus a b) x = Resources.plus a (σ b x)) :
    ∀ (L : List β) (a b : Resources),
      L.foldl σ (Resources.plus a b) = Resources.plus a (L.foldl σ b) := by
  intro L
  induction L with
  | nil => intro a b; rfl
  | cons x xs ih => intro a b; rw [List.foldl_cons, List.foldl_cons, hshift, ih]

theorem foldl_from_zero {σ : Resources → β → Resources}
    (hshift : ∀ a b x, σ (Resources.plus a b) x = Resources.plus a (σ b x))
    (L : List β) (r : Resources) :
    L.foldl σ r = Resources.plus r (L.foldl σ ⟨0, 0, 0, 0, 0⟩) := by
  have := foldl_plus_shift hshift L r ⟨0, 0, 0, 0, 0⟩
  rw [resources_plus_zero] at this
  exact this

theorem tileGainAt_shift (gs : GameState) (ids : List String) (i : Nat)
    (a b : Resources) (c : HexCoordinate) :
    tileGainAt gs ids i (Resources.plus a b) c =
      Resources.plus a (tileGainAt gs ids i b c) := by
  unfold tileGainAt
  cases alistGet c gs.board.tiles with
  | none => rfl
  | some tile =>
      simp only []
      by_cases hd : tile.terrain = TerrainType.desert
      · rw [if_pos hd, if_pos hd]
      · rw [if_neg hd, if_neg hd]
        cases ResourceManager.terrainToResource tile.terrain with
        | none => rfl
        | some rt => exact foldl_plus_shift (creditStepRes_shift c rt ids i) _ a b

theorem creditIntersection_get? (c : HexCoordinate) (rt : ResourceType)
    (ids : List String) (ps : List Player) (inter : Intersection)
    (hids : ps.map (fun p => p.id) = ids) (i : Nat) :
    ((ResourceManager.creditIntersection c rt ps inter).get? i =
      (ps.get? i).map (fun p =>
        { p with resources := creditStepRes c rt ids i p.resources inter })) ∧
    (ResourceManager.creditIntersection c rt ps inter).map (fun p => p.id) =
      ps.map (fun p => p.id) := by
  simp only [ResourceManager.creditIntersection, creditStepRes]
  cases hb : inter.building with
  | none => exact ⟨by show ps.get? i = _; cases ps.get? i <;> rfl, rfl⟩
  | some b =>
      simp only []
      have hfind : ids.findIdx? (fun s => s = b.playerId) =
          ps.findIdx? (fun p => p.id = b.playerId) := by
        rw [← hids, List.findIdx?_map]
        rfl
      constructor
      · rw [hfind]
        cases hg : ps.get? i with
        | none =>
            simp only [Option.map_none']
            by_cases hadj : (inter.hexes.any
                (fun h => h.q = c.q && h.r = c.r)) = true
            · rw [if_pos hadj]
              cases ps.findIdx? (fun p => p.id = b.playerId) with
              | none => exact hg
              | some j =>
                  try simp only []
                  by_cases hji : j = i
                  · subst hji
                    rw [listModify_get?_self, hg]
                    rfl
                  · rw [listModify_get?_ne j i (fun h2 => hji h2.symm)]
                    exact hg
            · rw [if_neg hadj]
              exact hg
        | some p =>
            simp only [Option.map_some']
            by_cases hadj : (inter.hexes.any
                (fun h => h.q = c.q && h.r = c.r)) = true
            · rw [if_pos hadj, if_pos hadj]
              cases hj : ps.findIdx? (fun p => p.id = b.playerId) with
              | none => try simp only []
                        rw [hg]
              | some j =>
                  try simp only []
                  by_cases hji : j = i
                  · subst hji
                    rw [listModify_get?_self, hg, if_pos rfl]
                    rfl
                  · rw [listModify_get?_ne j i (fun h2 => hji h2.symm), hg,
                      if_neg hji]
            · rw [if_neg hadj, if_neg hadj, hg]
      · by_cases hadj : (inter.hexes.any
            (fun h => h.q = c.q && h.r = c.r)) = true
        · rw [if_pos hadj]
          cases ps.findIdx? (fun p => p.id = b.playerId) with
          | none => rfl
          | some j =>
              try simp only []
              refine listModify_map_id (fun p => p.id) _ (fun x => ?_) j ps
              rfl
        · rw [if_neg hadj]

theorem creditFold_get? (c : HexCoordinate) (rt : ResourceType)
    (ids : List String) :
    ∀ (L : List Intersection) (ps : List Player),
      ps.map (fun p => p.id) = ids → ∀ i,
      ((L.foldl (ResourceManager.creditIntersection c rt) ps).get? i =
        (ps.get? i).map (fun p =>
          { p with resources := L.foldl (creditStepRes c rt ids i) p.resources })) ∧
      (L.foldl (ResourceManager.creditIntersection c rt) ps).map
        (fun p => p.id) = ids := by
  intro L
  induction L with
  | nil =>
      intro ps hids i
      exact ⟨by show ps.get? i = _; cases ps.get? i <;> rfl, hids⟩
  | cons x xs ih =>
      intro ps hids i
      have hB := creditIntersection_get? c rt ids ps x hids i
      have hids1 : (ResourceManager.creditIntersection c rt ps x).map
          (fun p => p.id) = ids := hB.2.trans hids
      have hI := ih (ResourceManager.creditIntersection c rt ps x) hids1 i
      rw [List.foldl_cons]
      refine ⟨?_, hI.2⟩
      rw [hI.1, hB.1]
      cases ps.get? i with
      | none => rfl
      | some p => rfl

theorem creditTile_get? (gs : GameState) (ids : List String) (ps : List Player)
    (hids : ps.map (fun p => p.id) = ids) (coord : HexCoordinate) (i : Nat) :
    ((ResourceManager.creditTile gs ps coord).get? i =
      (ps.get? i).map (fun p =>
        { p with resources := tileGainAt gs ids i p.resources coord })) ∧
    (ResourceManager.creditTile gs ps coord).map (fun p => p.id) = ids := by
  unfold ResourceManager.creditTile tileGainAt
  cases hg : alistGet coord gs.board.tiles with
  | none => exact ⟨by show ps.get? i = _; cases ps.get? i <;> rfl, hids⟩
  | some tile =>
      try simp only []
      constructor
      · cases hp : ps.get? i with
        | none =>
            simp only [Option.map_none']
            by_cases hd : tile.terrain = TerrainType.desert
            · rw [if_pos hd]
              exact hp
            · rw [if_neg hd]
              cases ht : ResourceManager.terrainToResource tile.terrain with
              | none => exact hp
              | some rt =>
                  try simp only []
                  rw [(creditFold_get? coord rt ids
                    (alistValues gs.board.intersections) ps hids i).1, hp]
                  rfl
        | some p =>
            simp only [Option.map_some']
            by_cases hd : tile.terrain = TerrainType.desert
            · rw [if_pos hd, if_pos hd, hp]
            · rw [if_neg hd, if_neg hd]
              cases ht : ResourceManager.terrainToResource tile.terrain with
              | none =>
                  try simp only []
                  rw [hp]
              | some rt =>
                  try simp only []
                  rw [(creditFold_get? coord rt ids
                    (alistValues gs.board.intersections) ps hids i).1, hp]
                  rfl
      · by_cases hd : tile.terrain = TerrainType.desert
        · rw [if_pos hd]
          exact hids
        · rw [if_neg hd]
          cases ht : ResourceManager.terrainToResource tile.terrain with
          | none => exact hids
          | some rt =>
              exact (creditFold_get? coord rt ids
                (alistValues gs.board.intersections) ps hids i).2

theorem tileFold_get? (gs : GameState) (ids : List String) :
    ∀ (TL : List HexCoordinate) (ps : List Player),
      ps.map (fun p => p.id) = ids → ∀ i,
      ((TL.foldl (ResourceManager.creditTile gs) ps).get? i =
        (ps.get? i).map (fun p =>
          { p with resources := TL.foldl (tileGainAt gs ids i) p.resources })) ∧
      (TL.foldl (ResourceManager.creditTile gs) ps).map (fun p => p.id) = ids := by
  intro TL
  induction TL with
  | nil =>
      intro ps hids i
      exact ⟨by show ps.get? i = _; cases ps.get? i <;> rfl, hids⟩
  | cons x xs ih =>
      intro ps hids i
      have hD := creditTile_get? gs ids ps hids x i
      have hI := ih (ResourceManager.creditTile gs ps x) hD.2 i
      rw [List.foldl_cons]
      refine ⟨?_, hI.2⟩
      rw [hI.1, hD.1]
      cases ps.get? i with
      | none => rfl
      | some p => rfl

theorem foldl_filterMap_match (f : β → Option γ) (g : α → γ → α) :
    ∀ (l : List β) (z : α),
      (l.filterMap f).foldl g z =
        l.foldl (fun z b => match f b with | some c => g z c | none => z) z := by
  intro l
  induction l with
  | nil => intro z; rfl
  | cons x xs ih =>
      intro z
      rw [List.filterMap_cons, List.foldl_cons]
      cases hfx : f x with
      | none => exact ih z
      | some c => rw [List.foldl_cons]; exact ih (g z c)

theorem alistGet_of_values_mem {l : List (HexCoordinate × Tile)}
    (hk : ∀ p ∈ l, p.1 = p.2.coordinate) (hnd : (alistKeys l).Nodup)
    {t : Tile} (ht : t ∈ alistValues l) : alistGet t.coordinate l = some t := by
  induction l with
  | nil => cases ht
  | cons hd tl ih =>
      obtain ⟨k0, t0⟩ := hd
      have hk0 : k0 = t0.coordinate := hk (k0, t0) (List.mem_cons_self _ _)
      have hnd2 := List.nodup_cons.mp hnd
      simp only [alistValues, List.map_cons, List.mem_cons] at ht
      rcases ht with rfl | hmem
      · unfold alistGet
        rw [List.find?_cons_of_pos _ (by simp [hk0])]
        rfl
      · have hne : ¬ (k0 = t.coordinate) := by
          intro hEq
          apply hnd2.1
          have : ∃ q ∈ tl, q.2 = t := by
            obtain ⟨q, hq, hq2⟩ := List.mem_map.mp hmem
            exact ⟨q, hq, hq2⟩
          obtain ⟨q, hq, hq2⟩ := this
          have : q.1 = t.coordinate := by
            rw [hk q (List.mem_cons_of_mem _ hq), hq2]
          rw [hEq, ← this]
          exact List.mem_map_of_mem (fun p => p.1) hq
        unfold alistGet
        rw [List.find?_cons_of_neg _ (by simp [hne])]
        exact ih (fun p hp => hk p (List.mem_cons_of_mem _ hp)) hnd2.2
          (by simpa [alistValues] using hmem)

theorem findIdx?_id_iff {ids : List String} {i : Nat} {pid x : String}
    (hnd : ids.Nodup) (hi : ids.get? i = some pid) :
    (ids.findIdx? (fun s => s = x) = some i ↔ x = pid) := by
  have hlt : i < ids.length := by
    cases hg : ids.get? i with
    | none => rw [hg] at hi; cases hi
    | some a => exact (List.get?_eq_some.mp hi).1
  have hgetd : ids[i] = pid := by
    have h2 : ids[i]? = some pid := by
      rw [← List.get?_eq_getElem?]
      exact hi
    rw [List.getElem?_eq_getElem hlt] at h2
    exact Option.some.inj h2
  constructor
  · intro h
    obtain ⟨hlt2, hp, -⟩ := List.findIdx?_eq_some_iff_getElem.mp h
    have : ids[i] = x := by simpa using hp
    rw [← this, hgetd]
  · intro hx
    subst hx
    apply List.findIdx?_eq_some_iff_getElem.mpr
    refine ⟨hlt, by simp [hgetd], ?_⟩
    intro j hji
    simp only [Bool.not_eq_true, decide_eq_false_iff_not]
    intro hEq
    have hjlt : j < ids.length := Nat.lt_trans hji hlt
    have : j = i := by
      have hji2 : ids[j] = ids[i] := by rw [hEq, hgetd]
      exact (List.Nodup.getElem_inj_iff hnd).mp hji2
    omega

theorem productionGain_eq_fold (gs : GameState) (diceSum : Nat)
    (ids : List String) (i : Nat) (pid : String)
    (hnd : ids.Nodup) (hi : ids.get? i = some pid)
    (hwk : tilesWellKeyed gs.board) :
    ((alistValues gs.board.tiles).filterMap (fun tile =>
        if tile.numberDisc = some diceSum && !tile.hasRobber then
          some tile.coordinate
        else none)).foldl (tileGainAt gs ids i) ⟨0, 0, 0, 0, 0⟩ =
      productionGain gs diceSum pid := by
  rw [foldl_filterMap_match]
  unfold productionGain
  apply foldl_congr_fun
  intro acc tile htile
  by_cases hcond : (tile.numberDisc = some diceSum && !tile.hasRobber) = true
  · rw [if_pos hcond]
    show tileGainAt gs ids i acc tile.coordinate = _
    unfold tileGainAt
    rw [alistGet_of_values_mem hwk.1 hwk.2 htile]
    show (if tile.terrain = TerrainType.desert then acc else _) = _
    by_cases hd : tile.terrain = TerrainType.desert
    · rw [if_pos hd, if_neg (by simp [hd])]
    · have hcond3 : (tile.numberDisc = some diceSum && !tile.hasRobber &&
          !(tile.terrain = TerrainType.desert)) = true := by
        simp only [Bool.and_eq_true] at hcond ⊢
        exact ⟨hcond, by simp [hd]⟩
      rw [if_neg hd, if_pos hcond3]
      cases ht : ResourceManager.terrainToResource tile.terrain with
      | none => rfl
      | some rt =>
          simp only []
          apply foldl_congr_fun
          intro acc2 inter _
          unfold creditStepRes
          cases hb : inter.building with
          | none =>
              by_cases hadj : (inter.hexes.any (fun h =>
                  h.q = tile.coordinate.q && h.r = tile.coordinate.r)) = true
              · rw [if_pos hadj]
              · rw [if_neg hadj]
          | some b =>
              simp only []
              by_cases hadj : (inter.hexes.any (fun h =>
                  h.q = tile.coordinate.q && h.r = tile.coordinate.r)) = true
              · rw [if_pos hadj, if_pos hadj]
                by_cases hb2 : b.playerId = pid
                · rw [(findIdx?_id_iff hnd hi).mpr hb2]
                  simp [hb2]
                · rw [if_neg hb2]
                  cases hj : ids.findIdx? (fun s => s = b.playerId) with
                  | none => rfl
                  | some j =>
                      simp only []
                      have hji : ¬ (j = i) := by
                        intro hEq
                        subst hEq
                        exact hb2 ((findIdx?_id_iff hnd hi).mp hj)
                      rw [if_neg hji]
              · rw [if_neg hadj, if_neg hadj]
  · rw [if_neg hcond]
    have hcond3 : ¬ ((tile.numberDisc = some diceSum && !tile.hasRobber &&
        !(tile.terrain = TerrainType.desert)) = true) := by
      intro h
      simp only [Bool.and_eq_true] at h
      exact hcond (by simp [h.1.1, h.1.2])
    rw [if_neg hcond3]

/-- C7: `distributeResources` with dice sum 7 leaves every player's hand
unchanged, and for every other dice sum every player's new hand is their old
hand plus exactly the spec-side production gain — one unit per adjacent
settlement and two per adjacent city of every matching-disc,
robber-free, non-desert tile (so a robber-occupied tile contributes
nothing even when its disc matches). -/
theorem claimC7_distribute_resources_characterization (gs : GameState)
    (hids : (gs.players.map (fun p => p.id)).Nodup)
    (hwk : tilesWellKeyed gs.board) :
    ((ResourceManager.distributeResources gs 7).players.map
        (fun p => p.resources) = gs.players.map (fun p => p.resources)) ∧
    (∀ diceSum, diceSum ≠ 7 → ∀ i p, gs.players.get? i = some p →
      (ResourceManager.distributeResources gs diceSum).players.get? i =
        some { p with resources :=
          Resources.plus p.resources (productionGain gs diceSum p.id) }) := by
  constructor
  · show (ResourceManager.handleSevenRolled gs).players.map (fun p => p.resources)
      = gs.players.map (fun p => p.resources)
    unfold ResourceManager.handleSevenRolled
    simp only [List.map_map]
    apply List.map_congr_left
    intro p hp
    by_cases h : ResourceManager.getTotalResources p.resources > 7 <;> simp [h]
  · intro diceSum hs i p hp
    unfold ResourceManager.distributeResources
    rw [if_neg hs]
    show (((alistValues gs.board.tiles).filterMap (fun tile =>
        if tile.numberDisc = some diceSum && !tile.hasRobber then
          some tile.coordinate
        else none)).foldl (ResourceManager.creditTile gs) gs.players).get? i = _
    rw [(tileFold_get? gs (gs.players.map (fun p => p.id)) _ gs.players rfl i).1,
      hp]
    have hpid : (gs.players.map (fun p => p.id)).get? i = some p.id := by
      rw [List.get?_map, hp]
      rfl
    simp only [Option.map_some']
    rw [foldl_from_zero (tileGainAt_shift gs (gs.players.map (fun p => p.id)) i)]
    rw [productionGain_eq_fold gs diceSum (gs.players.map (fun p => p.id)) i p.id
      hids hpid hwk]

/-- Witness for C7 at a concrete input: a fresh game with dice sum 9 credits
player 1 (whose lone hypothetical hand is empty) exactly the production gain
of the board. -/
theorem claimC7_witness :
    (ResourceManager.distributeResources newGameTwoPlayers 9).players.get? 0 =
      (newGameTwoPlayers.players.get? 0).map (fun p =>
        { p with resources :=
            (Resources.plus p.resources
              (productionGain newGameTwoPlayers 9 p.id)) }) := by
  rw [(claimC7_distribute_resources_characterization newGameTwoPlayers
      (by decide) (by decide)).2 9 (by decide) 0
    (newGameTwoPlayers.players.get ⟨0, by decide⟩) (by rfl)]
  rfl

/-- C3: a state with no robber on any tile is reachable from `createNewGame`
by successful `processAction` calls alone: after setup, rolls of 9, 10 and 6,
and a development-card purchase, player 2 plays the knight onto an off-board
hex, which `playKnightCard` accepts, clearing every tile's robber flag and
setting none. -/
theorem claimC3_reachable_state_with_zero_robber_tiles :
    (runActions newGameTwoPlayers knightOffBoardTrace).map countRobberTiles =
      some 0 := by
  decide

theorem le_foldr_max (l : List Nat) (x : Nat) (hx : x ∈ l) :
    x ≤ l.foldr max 0 := by
  induction l with
  | nil => cases hx
  | cons y ys ih =>
      rcases List.mem_cons.mp hx with rfl | hmem
      · exact Nat.le_max_left _ _
      · exact Nat.le_trans (ih hmem) (Nat.le_max_right _ _)

theorem foldr_max_le (l : List Nat) (b : Nat) (h : ∀ x ∈ l, x ≤ b) :
    l.foldr max 0 ≤ b := by
  induction l with
  | nil => exact Nat.zero_le b
  | cons y ys ih =>
      show max y (ys.foldr max 0) ≤ b
      exact Nat.max_le.mpr ⟨h y (List.mem_cons_self y ys),
        ih (fun x hx => h x (List.mem_cons_of_mem y hx))⟩

theorem insertByValueDesc_perm (x : String × Nat) :
    ∀ l, (VictoryManager.insertByValueDesc x l).Perm (x :: l) := by
  intro l
  induction l with
  | nil => exact List.Perm.refl _
  | cons y ys ih =>
      unfold VictoryManager.insertByValueDesc
      by_cases hge : x.2 ≥ y.2
      · rw [if_pos hge]
      · rw [if_neg hge]
        exact (ih.cons y).trans (List.Perm.swap x y ys)

theorem sortByValueDesc_perm :
    ∀ l : List (String × Nat), (VictoryManager.sortByValueDesc l).Perm l := by
  intro l
  induction l with
  | nil => exact List.Perm.refl _
  | cons x xs ih =>
      show (VictoryManager.insertByValueDesc x
        (VictoryManager.sortByValueDesc xs)).Perm _
      exact (insertByValueDesc_perm x _).trans (ih.cons x)

theorem sortByValueDesc_head_max :
    ∀ (l : List (String × Nat)) (h : String × Nat) (t : List (String × Nat)),
      VictoryManager.sortByValueDesc l = h :: t → ∀ y ∈ l, y.2 ≤ h.2 := by
  intro l
  induction l with
  | nil => intro h t heq; cases heq
  | cons x xs ih =>
      intro h t heq y hy
      have hsx : VictoryManager.sortByValueDesc (x :: xs) =
          VictoryManager.insertByValueDesc x (VictoryManager.sortByValueDesc xs) :=
        rfl
      rw [hsx] at heq
      cases hs : VictoryManager.sortByValueDesc xs with
      | nil =>
          rw [hs] at heq
          have hx2 : [x] = h :: t := heq
          have hhx : h = x := by
            injection hx2 with h1 h2
            exact h1.symm
          subst hhx
          rcases List.mem_cons.mp hy with rfl | hmem
          · exact Nat.le_refl _
          · have hxs : xs = [] := by
              have hperm := sortByValueDesc_perm xs
              rw [hs] at hperm
              exact (hperm.symm).eq_nil
            rw [hxs] at hmem
            cases hmem
      | cons h0 t0 =>
          rw [hs] at heq
          have hmax0 : ∀ y2 ∈ xs, y2.2 ≤ h0.2 := ih h0 t0 hs
          unfold VictoryManager.insertByValueDesc at heq
          by_cases hge : x.2 ≥ h0.2
          · rw [if_pos hge] at heq
            have hhx : h = x := by
              injection heq with h1 h2
              exact h1.symm
            subst hhx
            rcases List.mem_cons.mp hy with rfl | hmem
            · exact Nat.le_refl _
            · exact Nat.le_trans (hmax0 y hmem) hge
          · rw [if_neg hge] at heq
            have hhh : h = h0 := by
              injection heq with h1 h2
              exact h1.symm
            subst hhh
            rcases List.mem_cons.mp hy with rfl | hmem
            · exact Nat.le_of_lt (Nat.lt_of_not_le hge)
            · exact hmax0 y hmem

theorem sortByValueDesc_ne_nil (x : String × Nat) (xs : List (String × Nat)) :
    VictoryManager.sortByValueDesc (x :: xs) ≠ [] := by
  show VictoryManager.insertByValueDesc x (VictoryManager.sortByValueDesc xs) ≠ []
  cases VictoryManager.sortByValueDesc xs with
  | nil => simp [VictoryManager.insertByValueDesc]
  | cons y ys =>
      unfold VictoryManager.insertByValueDesc
      by_cases hge : x.2 ≥ y.2
      · rw [if_pos hge]
        simp
      · rw [if_neg hge]
        simp

theorem ids_get?_eq {P : List Player} {k : Nat} {p : Player}
    (hk : P.get? k = some p) :
    (P.map (fun q => q.id)).get? k = some p.id := by
  rw [List.get?_map, hk]
  rfl

theorem seat_of_id_unique {P : List Player}
    (hnd : (P.map (fun q => q.id)).Nodup) {k k2 : Nat} {p p2 : Player}
    (h1 : P.get? k = some p) (h2 : P.get? k2 = some p2)
    (hid : p.id = p2.id) : k = k2 := by
  have ha := (findIdx?_id_iff hnd (ids_get?_eq h1)).mpr rfl
  have hb := (findIdx?_id_iff hnd (ids_get?_eq h2)).mpr hid
  rw [ha] at hb
  exact Option.some.inj hb

theorem findIdx?_players_id {P : List Player}
    (hnd : (P.map (fun q => q.id)).Nodup) {k : Nat} {p : Player}
    (hk : P.get? k = some p) {x : String} (hx : x = p.id) :
    P.findIdx? (fun q => q.id = x) = some k := by
  have hfind : (P.map (fun q => q.id)).findIdx? (fun s => s = x) =
      P.findIdx? (fun q => q.id = x) := by
    rw [List.findIdx?_map]
    rfl
  rw [← hfind]
  exact (findIdx?_id_iff hnd (ids_get?_eq hk)).mpr hx

theorem holdsLongestRoad_set (gs : GameState) (ps : List Player) (k : Nat) :
    holdsLongestRoad { gs with players := ps } k =
      ((ps.get? k).map (fun p => p.specialCards.longestRoad)).getD false := rfl

theorem clearAt_flag_self (ps : List Player) (c : Nat) (p : Player)
    (hp : ps.get? c = some p) :
    ∃ q, (VictoryManager.clearLongestRoadAt ps c).get? c = some q ∧
      q.specialCards.longestRoad = false ∧ q.id = p.id := by
  unfold VictoryManager.clearLongestRoadAt
  rw [listModify_get?_self, hp]
  exact ⟨_, rfl, rfl, rfl⟩

theorem clearAt_get?_ne (ps : List Player) (c k : Nat) (h : k ≠ c) :
    (VictoryManager.clearLongestRoadAt ps c).get? k = ps.get? k := by
  unfold VictoryManager.clearLongestRoadAt
  exact listModify_get?_ne c k h _ ps

theorem awardAt_flag_self (ps : List Player) (w : Nat) (p : Player)
    (hp : ps.get? w = some p) :
    ∃ q, (VictoryManager.awardLongestRoadAt ps w).get? w = some q ∧
      q.specialCards.longestRoad = true ∧ q.id = p.id := by
  unfold VictoryManager.awardLongestRoadAt
  rw [listModify_get?_self, hp]
  exact ⟨_, rfl, rfl, rfl⟩

theorem awardAt_get?_ne (ps : List Player) (w k : Nat) (h : k ≠ w) :
    (VictoryManager.awardLongestRoadAt ps w).get? k = ps.get? k := by
  unfold VictoryManager.awardLongestRoadAt
  exact listModify_get?_ne w k h _ ps

theorem clearAt_map_id (ps : List Player) (c : Nat) :
    (VictoryManager.clearLongestRoadAt ps c).map (fun p => p.id) =
      ps.map (fun p => p.id) := by
  unfold VictoryManager.clearLongestRoadAt
  refine listModify_map_id (fun p => p.id) _ (fun x => ?_) c ps
  rfl

theorem updateLongestRoad_empty (gs : GameState)
    (hvr : (gs.players.map (fun player =>
        (player.id, VictoryManager.calculateLongestRoadLength gs player.id))).filter
        (fun road => road.2 ≥ 5) = []) :
    VictoryManager.updateLongestRoad gs =
      { gs with players := gs.players.map (fun p =>
          if p.specialCards.longestRoad then
            { p with
                specialCards := { p.specialCards with longestRoad := false },
                victoryPoints := p.victoryPoints - 2 }
          else p) } := by
  simp only [VictoryManager.updateLongestRoad]
  rw [hvr]
  rfl

theorem updateLongestRoad_winner_none (gs : GameState) (v h0 : String × Nat)
    (vs t0 : List (String × Nat))
    (hvr : (gs.players.map (fun player =>
        (player.id, VictoryManager.calculateLongestRoadLength gs player.id))).filter
        (fun road => road.2 ≥ 5) = v :: vs)
    (hst : VictoryManager.sortByValueDesc (v :: vs) = h0 :: t0)
    (hnil : t0.filter (fun road => road.2 = h0.2) = [])
    (hch : gs.players.find? (fun p => p.specialCards.longestRoad) = none)
    (kw : Nat)
    (hwidx : gs.players.findIdx? (fun p => p.id = h0.1) = some kw) :
    VictoryManager.updateLongestRoad gs =
      { gs with players := VictoryManager.awardLongestRoadAt gs.players kw } := by
  simp only [VictoryManager.updateLongestRoad]
  rw [hvr, if_neg (by simp), hst]
  have hfe : (h0 :: t0).filter (fun road => road.2 = h0.2) = [h0] := by
    rw [List.filter_cons_of_pos (by simp), hnil]
  simp only [List.head?_cons, Option.map_some', Option.getD_some]
  rw [if_pos (show ((h0 :: t0).filter
    (fun road => road.2 = h0.2)).length = 1 by rw [hfe]; rfl)]
  simp only [hfe, List.head?_cons, Option.map_some', Option.getD_some]
  rw [hch]
  simp only []
  rw [hwidx]
  simp only [Option.getD_some]

theorem updateLongestRoad_winner_keep (gs : GameState) (v h0 : String × Nat)
    (vs t0 : List (String × Nat)) (holder : Player)
    (hvr : (gs.players.map (fun player =>
        (player.id, VictoryManager.calculateLongestRoadLength gs player.id))).filter
        (fun road => road.2 ≥ 5) = v :: vs)
    (hst : VictoryManager.sortByValueDesc (v :: vs) = h0 :: t0)
    (hnil : t0.filter (fun road => road.2 = h0.2) = [])
    (hch : gs.players.find? (fun p => p.specialCards.longestRoad) = some holder)
    (hne : holder.id = h0.1) :
    VictoryManager.updateLongestRoad gs = gs := by
  simp only [VictoryManager.updateLongestRoad]
  rw [hvr, if_neg (by simp), hst]
  have hfe : (h0 :: t0).filter (fun road => road.2 = h0.2) = [h0] := by
    rw [List.filter_cons_of_pos (by simp), hnil]
  simp only [List.head?_cons, Option.map_some', Option.getD_some]
  rw [if_pos (show ((h0 :: t0).filter
    (fun road => road.2 = h0.2)).length = 1 by rw [hfe]; rfl)]
  simp only [hfe, List.head?_cons, Option.map_some', Option.getD_some]
  rw [hch]
  simp only []
  rw [if_neg (fun hc => hc hne), if_neg (fun hc => hc hne)]

theorem updateLongestRoad_winner_take (gs : GameState) (v h0 : String × Nat)
    (vs t0 : List (String × Nat)) (holder : Player)
    (hvr : (gs.players.map (fun player =>
        (player.id, VictoryManager.calculateLongestRoadLength gs player.id))).filter
        (fun road => road.2 ≥ 5) = v :: vs)
    (hst : VictoryManager.sortByValueDesc (v :: vs) = h0 :: t0)
    (hnil : t0.filter (fun road => road.2 = h0.2) = [])
    (hch : gs.players.find? (fun p => p.specialCards.longestRoad) = some holder)
    (hne : holder.id ≠ h0.1) (c kw : Nat)
    (hcidx : gs.players.findIdx? (fun p => p.id = holder.id) = some c)
    (hwidx : (VictoryManager.clearLongestRoadAt gs.players c).findIdx?
      (fun p => p.id = h0.1) = some kw) :
    VictoryManager.updateLongestRoad gs =
      { gs with players :=
          (VictoryManager.awardLongestRoadAt
            (VictoryManager.clearLongestRoadAt gs.players c) kw) } := by
  simp only [VictoryManager.updateLongestRoad]
  rw [hvr, if_neg (by simp), hst]
  have hfe : (h0 :: t0).filter (fun road => road.2 = h0.2) = [h0] := by
    rw [List.filter_cons_of_pos (by simp), hnil]
  simp only [List.head?_cons, Option.map_some', Option.getD_some]
  rw [if_pos (show ((h0 :: t0).filter
    (fun road => road.2 = h0.2)).length = 1 by rw [hfe]; rfl)]
  simp only [hfe, List.head?_cons, Option.map_some', Option.getD_some]
  rw [hch]
  simp only []
  rw [if_pos hne, if_pos hne, hcidx]
  simp only [Option.getD_some]
  rw [hwidx]
  simp only [Option.getD_some]

theorem updateLongestRoad_tie_none (gs : GameState) (v h0 : String × Nat)
    (vs t0 : List (String × Nat))
    (hvr : (gs.players.map (fun player =>
        (player.id, VictoryManager.calculateLongestRoadLength gs player.id))).filter
        (fun road => road.2 ≥ 5) = v :: vs)
    (hst : VictoryManager.sortByValueDesc (v :: vs) = h0 :: t0)
    (hlen : ¬ ((h0 :: t0).filter (fun road => road.2 = h0.2)).length = 1)
    (hch : gs.players.find? (fun p => p.specialCards.longestRoad) = none) :
    VictoryManager.updateLongestRoad gs = gs := by
  simp only [VictoryManager.updateLongestRoad]
  rw [hvr, if_neg (by simp), hst]
  simp only [List.head?_cons, Option.map_some', Option.getD_some]
  rw [if_neg hlen, hch]

theorem updateLongestRoad_tie_keep (gs : GameState) (v h0 : String × Nat)
    (vs t0 : List (String × Nat)) (holder : Player)
    (hvr : (gs.players.map (fun player =>
        (player.id, VictoryManager.calculateLongestRoadLength gs player.id))).filter
        (fun road => road.2 ≥ 5) = v :: vs)
    (hst : VictoryManager.sortByValueDesc (v :: vs) = h0 :: t0)
    (hlen : ¬ ((h0 :: t0).filter (fun road => road.2 = h0.2)).length = 1)
    (hch : gs.players.find? (fun p => p.specialCards.longestRoad) = some holder)
    (hany : ((h0 :: t0).filter (fun road => road.2 = h0.2)).any
      (fun road => road.1 = holder.id) = true) :
    VictoryManager.updateLongestRoad gs = gs := by
  simp only [VictoryManager.updateLongestRoad]
  rw [hvr, if_neg (by simp), hst]
  simp only [List.head?_cons, Option.map_some', Option.getD_some]
  rw [if_neg hlen, hch]
  simp only []
  rw [if_pos hany]

theorem updateLongestRoad_tie_strip (gs : GameState) (v h0 : String × Nat)
    (vs t0 : List (String × Nat)) (holder : Player)
    (hvr : (gs.players.map (fun player =>
        (player.id, VictoryManager.calculateLongestRoadLength gs player.id))).filter
        (fun road => road.2 ≥ 5) = v :: vs)
    (hst : VictoryManager.sortByValueDesc (v :: vs) = h0 :: t0)
    (hlen : ¬ ((h0 :: t0).filter (fun road => road.2 = h0.2)).length = 1)
    (hch : gs.players.find? (fun p => p.specialCards.longestRoad) = some holder)
    (hany : ((h0 :: t0).filter (fun road => road.2 = h0.2)).any
      (fun road => road.1 = holder.id) = false) (c : Nat)
    (hcidx : gs.players.findIdx? (fun p => p.id = holder.id) = some c) :
    VictoryManager.updateLongestRoad gs =
      { gs with players := VictoryManager.clearLongestRoadAt gs.players c } := by
  simp only [VictoryManager.updateLongestRoad]
  rw [hvr, if_neg (by simp), hst]
  simp only [List.head?_cons, Option.map_some', Option.getD_some]
  rw [if_neg hlen, hch]
  simp only []
  rw [if_neg (fun hc => by rw [hany] at hc; cases hc), hcidx]
  simp only [Option.getD_some]

/-- C8: after `updateLongestRoad` (run by the orchestrator after every
dispatched action), with distinct player ids and at most one current holder:
(1) every holder of the longest-road bonus has a qualifying road length of at
least 5 (lengths as the code computes them from the input state);
(2) a player whose qualifying length is at least 5 and strictly greater than
every other seat's takes the bonus exclusively;
(3) when the maximum qualifying length is shared by two different seats,
ownership never transfers: a seat holds the bonus afterwards exactly when it
held it before and is still at the maximum. -/
theorem claimC8_longest_road_award_rules (gs : GameState)
    (hids : (gs.players.map (fun p => p.id)).Nodup)
    (hone : atMostOneLongestRoadHolder gs) :
    (∀ k, holdsLongestRoad (VictoryManager.updateLongestRoad gs) k = true →
      5 ≤ roadLengthAt gs k) ∧
    (∀ i, 5 ≤ roadLengthAt gs i →
      (∀ j, j < gs.players.length → j ≠ i →
        roadLengthAt gs j < roadLengthAt gs i) →
      holdsLongestRoad (VictoryManager.updateLongestRoad gs) i = true ∧
      ∀ k, k ≠ i →
        holdsLongestRoad (VictoryManager.updateLongestRoad gs) k = false) ∧
    ((∃ i j, i ≠ j ∧ i < gs.players.length ∧ j < gs.players.length ∧
        roadLengthAt gs i = maxRoadLength gs ∧
        roadLengthAt gs j = maxRoadLength gs ∧ 5 ≤ maxRoadLength gs) →
      ∀ k, holdsLongestRoad (VictoryManager.updateLongestRoad gs) k =
        (holdsLongestRoad gs k &&
          decide (roadLengthAt gs k = maxRoadLength gs))) := by
  have hlenAt : ∀ k p, gs.players.get? k = some p →
      roadLengthAt gs k = VictoryManager.calculateLongestRoadLength gs p.id := by
    intro k p hk
    unfold roadLengthAt
    rw [hk]
    rfl
  have hlen5some : ∀ k, 5 ≤ roadLengthAt gs k →
      ∃ p, gs.players.get? k = some p := by
    intro k h5
    cases hk : gs.players.get? k with
    | none =>
        unfold roadLengthAt at h5
        rw [hk] at h5
        simp at h5
    | some p => exact ⟨p, rfl⟩
  have hentry : ∀ k p, gs.players.get? k = some p →
      (p.id, VictoryManager.calculateLongestRoadLength gs p.id) ∈
        gs.players.map (fun player =>
          (player.id, VictoryManager.calculateLongestRoadLength gs player.id)) := by
    intro k p hk
    have h2 : (gs.players.map (fun player =>
        (player.id, VictoryManager.calculateLongestRoadLength gs player.id))).get? k =
        some (p.id, VictoryManager.calculateLongestRoadLength gs p.id) := by
      rw [List.get?_map, hk]
      rfl
    exact List.get?_mem h2
  have hmaxle : ∀ k p, gs.players.get? k = some p →
      VictoryManager.calculateLongestRoadLength gs p.id ≤ maxRoadLength gs := by
    intro k p hk
    unfold maxRoadLength
    apply le_foldr_max
    have h2 : (gs.players.map (fun q =>
        VictoryManager.calculateLongestRoadLength gs q.id)).get? k =
        some (VictoryManager.calculateLongestRoadLength gs p.id) := by
      rw [List.get?_map, hk]
      rfl
    exact List.get?_mem h2
  have holds_some : ∀ k, holdsLongestRoad gs k = true →
      ∃ q, gs.players.get? k = some q ∧ q.specialCards.longestRoad = true := by
    intro k hk
    unfold holdsLongestRoad at hk
    cases hq : gs.players.get? k with
    | none => rw [hq] at hk; cases hk
    | some q => rw [hq] at hk; exact ⟨q, rfl, hk⟩
  cases hvr : (gs.players.map (fun player =>
      (player.id, VictoryManager.calculateLongestRoadLength gs player.id))).filter
      (fun road => road.2 ≥ 5) with
  | nil =>
      have hU := updateLongestRoad_empty gs hvr
      have hflag : ∀ k,
          holdsLongestRoad (VictoryManager.updateLongestRoad gs) k = false := by
        intro k
        rw [hU, holdsLongestRoad_set, List.get?_map]
        cases hk : gs.players.get? k with
        | none => rfl
        | some p =>
            simp only [Option.map_some', Option.getD_some]
            by_cases hf : p.specialCards.longestRoad = true
            · rw [if_pos hf]
            · rw [if_neg hf]
              simpa using hf
      have hnovr : ∀ k p, gs.players.get? k = some p →
          ¬ 5 ≤ VictoryManager.calculateLongestRoadLength gs p.id := by
        intro k p hk h5
        have hmemf : (p.id, VictoryManager.calculateLongestRoadLength gs p.id) ∈
            (gs.players.map (fun player =>
              (player.id, VictoryManager.calculateLongestRoadLength gs player.id))).filter
              (fun road => road.2 ≥ 5) :=
          List.mem_filter.mpr ⟨hentry k p hk, by simpa using h5⟩
        rw [hvr] at hmemf
        cases hmemf
      refine ⟨?_, ?_, ?_⟩
      · intro k hk
        rw [hflag k] at hk
        cases hk
      · intro i h5 hstrict
        obtain ⟨p, hp⟩ := hlen5some i h5
        rw [hlenAt i p hp] at h5
        exact absurd h5 (hnovr i p hp)
      · rintro ⟨i, j, hij, hilt, hjlt, hmi, hmj, h5m⟩ k
        exfalso
        obtain ⟨p, hp⟩ := hlen5some i (by rw [hmi]; exact h5m)
        have h5i : 5 ≤ roadLengthAt gs i := by rw [hmi]; exact h5m
        rw [hlenAt i p hp] at h5i
        exact hnovr i p hp h5i
  | cons v vs =>
      cases hst : VictoryManager.sortByValueDesc (v :: vs) with
      | nil => exact absurd hst (sortByValueDesc_ne_nil v vs)
      | cons h0 t0 =>
          have hperm : (h0 :: t0).Perm (v :: vs) := by
            have h2 := sortByValueDesc_perm (v :: vs)
            rw [hst] at h2
            exact h2
          have hmaxsv : ∀ y ∈ v :: vs, y.2 ≤ h0.2 :=
            sortByValueDesc_head_max (v :: vs) h0 t0 hst
          have hmemh0 : h0 ∈ v :: vs := hperm.subset (List.mem_cons_self h0 t0)
          have hmemh0f : h0 ∈ (gs.players.map (fun player =>
              (player.id, VictoryManager.calculateLongestRoadLength gs player.id))).filter
              (fun road => road.2 ≥ 5) := by
            rw [hvr]
            exact hmemh0
          have h05 : 5 ≤ h0.2 := by
            have h2 := (List.mem_filter.mp hmemh0f).2
            simpa using h2
          have hh0RL : h0 ∈ gs.players.map (fun player =>
              (player.id, VictoryManager.calculateLongestRoadLength gs player.id)) :=
            (List.mem_filter.mp hmemh0f).1
          obtain ⟨pw, hpwmem, hpweq⟩ := List.mem_map.mp hh0RL
          obtain ⟨kw, hpw⟩ := List.mem_iff_get?.mp hpwmem
          have hpwid : pw.id = h0.1 := by rw [← hpweq]
          have hpwlen : VictoryManager.calculateLongestRoadLength gs pw.id = h0.2 := by
            rw [← hpweq]
          have hlenkw : roadLengthAt gs kw = h0.2 := by
            rw [hlenAt kw pw hpw, hpwlen]
          have hkwlt : kw < gs.players.length := by
            cases hg : gs.players.get? kw with
            | none => rw [hg] at hpw; cases hpw
            | some a => exact (List.get?_eq_some.mp hpw).1
          have hVRmem : ∀ k p, gs.players.get? k = some p →
              5 ≤ VictoryManager.calculateLongestRoadLength gs p.id →
              (p.id, VictoryManager.calculateLongestRoadLength gs p.id) ∈ v :: vs := by
            intro k p hk h5
            have h2 : (p.id, VictoryManager.calculateLongestRoadLength gs p.id) ∈
                (gs.players.map (fun player =>
                  (player.id,
                    VictoryManager.calculateLongestRoadLength gs player.id))).filter
                  (fun road => road.2 ≥ 5) :=
              List.mem_filter.mpr ⟨hentry k p hk, by simpa using h5⟩
            rw [hvr] at h2
            exact h2
          have hle_h0 : ∀ k p, gs.players.get? k = some p →
              VictoryManager.calculateLongestRoadLength gs p.id ≤ h0.2 := by
            intro k p hk
            by_cases h5 : 5 ≤ VictoryManager.calculateLongestRoadLength gs p.id
            · exact hmaxsv _ (hVRmem k p hk h5)
            · omega
          have hmaxeq : maxRoadLength gs = h0.2 := by
            apply Nat.le_antisymm
            · unfold maxRoadLength
              apply foldr_max_le
              intro x hx
              obtain ⟨q, hqmem, hqeq⟩ := List.mem_map.mp hx
              obtain ⟨kq, hkq⟩ := List.mem_iff_get?.mp hqmem
              rw [← hqeq]
              exact hle_h0 kq q hkq
            · rw [← hpwlen]
              exact hmaxle kw pw hpw
          have htiedperm : ((h0 :: t0).filter (fun road => road.2 = h0.2)).Perm
              ((v :: vs).filter (fun road => road.2 = h0.2)) :=
            hperm.filter _
          have hfstids : (gs.players.map (fun player =>
              (player.id, VictoryManager.calculateLongestRoadLength gs player.id))).map
              (fun road => road.1) = gs.players.map (fun p => p.id) := by
            rw [List.map_map]
            rfl
          have hVRsub : (v :: vs).Sublist (gs.players.map (fun player =>
              (player.id, VictoryManager.calculateLongestRoadLength gs player.id))) := by
            rw [← hvr]
            exact List.filter_sublist _
          have hVRfstnodup : ((v :: vs).map (fun road => road.1)).Nodup := by
            have h2 : ((gs.players.map (fun player =>
                (player.id, VictoryManager.calculateLongestRoadLength gs player.id))).map
                (fun road => road.1)).Nodup := by
              rw [hfstids]
              exact hids
            exact h2.sublist (hVRsub.map (fun road => road.1))
          have hseatVR : ∀ y, y ∈ v :: vs → ∃ ky q, gs.players.get? ky = some q ∧
              q.id = y.1 ∧ VictoryManager.calculateLongestRoadLength gs q.id = y.2 := by
            intro y hy
            have hyRL : y ∈ gs.players.map (fun player =>
                (player.id, VictoryManager.calculateLongestRoadLength gs player.id)) :=
              hVRsub.subset hy
            obtain ⟨q, hqmem, hqeq⟩ := List.mem_map.mp hyRL
            obtain ⟨ky, hkq⟩ := List.mem_iff_get?.mp hqmem
            refine ⟨ky, q, hkq, ?_, ?_⟩
            · rw [← hqeq]
            · rw [← hqeq]
          by_cases hlen : ((h0 :: t0).filter (fun road => road.2 = h0.2)).length = 1
          · have hcons : (h0 :: t0).filter (fun road => road.2 = h0.2) =
                h0 :: t0.filter (fun road => road.2 = h0.2) :=
              List.filter_cons_of_pos (by simp)
            have hnil : t0.filter (fun road => road.2 = h0.2) = [] := by
              rw [hcons] at hlen
              simp only [List.length_cons] at hlen
              exact List.length_eq_zero.mp (by omega)
            have huniqt : ∀ y ∈ (v :: vs).filter (fun road => road.2 = h0.2),
                y = h0 := by
              intro y hy
              have h2 : y ∈ (h0 :: t0).filter (fun road => road.2 = h0.2) :=
                htiedperm.mem_iff.mpr hy
              rw [hcons, hnil] at h2
              simpa using h2
            have hseatmax : ∀ k p, gs.players.get? k = some p →
                VictoryManager.calculateLongestRoadLength gs p.id = h0.2 → k = kw := by
              intro k p hk hlenk
              have hmemVR : (p.id, VictoryManager.calculateLongestRoadLength gs p.id) ∈
                  v :: vs := hVRmem k p hk (by rw [hlenk]; exact h05)
              have hmemT : (p.id, VictoryManager.calculateLongestRoadLength gs p.id) ∈
                  (v :: vs).filter (fun road => road.2 = h0.2) :=
                List.mem_filter.mpr ⟨hmemVR, by simp [hlenk]⟩
              have heq := huniqt _ hmemT
              have hpid : p.id = h0.1 := by rw [← heq]
              exact seat_of_id_unique hids hk hpw (hpid.trans hpwid.symm)
            have hCfalse : ¬ (∃ i j, i ≠ j ∧ i < gs.players.length ∧
                j < gs.players.length ∧ roadLengthAt gs i = maxRoadLength gs ∧
                roadLengthAt gs j = maxRoadLength gs ∧ 5 ≤ maxRoadLength gs) := by
              rintro ⟨i, j, hij, hilt, hjlt, hmi, hmj, h5m⟩
              obtain ⟨p_i, hp_i⟩ := hlen5some i (by rw [hmi]; exact h5m)
              obtain ⟨p_j, hp_j⟩ := hlen5some j (by rw [hmj]; exact h5m)
              have hi2 : VictoryManager.calculateLongestRoadLength gs p_i.id = h0.2 := by
                have h3 := hlenAt i p_i hp_i
                rw [h3] at hmi
                rw [hmi]
                exact hmaxeq
              have hj2 : VictoryManager.calculateLongestRoadLength gs p_j.id = h0.2 := by
                have h3 := hlenAt j p_j hp_j
                rw [h3] at hmj
                rw [hmj]
                exact hmaxeq
              have hki := hseatmax i p_i hp_i hi2
              have hkj := hseatmax j p_j hp_j hj2
              exact hij (hki.trans hkj.symm)
            have hBseat : ∀ i, 5 ≤ roadLengthAt gs i →
                (∀ j, j < gs.players.length → j ≠ i →
                  roadLengthAt gs j < roadLengthAt gs i) → kw = i := by
              intro i h5i hstrict
              by_cases hq : kw = i
              · exact hq
              · exfalso
                obtain ⟨p_i, hp_i⟩ := hlen5some i h5i
                have hlt := hstrict kw hkwlt hq
                rw [hlenkw] at hlt
                have hle := hle_h0 i p_i hp_i
                rw [hlenAt i p_i hp_i] at hlt
                omega
            cases hch : gs.players.find? (fun p => p.specialCards.longestRoad) with
            | none =>
                have hnof : ∀ q ∈ gs.players, q.specialCards.longestRoad = false := by
                  intro q hq
                  have h2 := List.find?_eq_none.mp hch q hq
                  simpa using h2
                have hwidx : gs.players.findIdx? (fun p => p.id = h0.1) = some kw :=
                  findIdx?_players_id hids hpw hpwid.symm
                have hU := updateLongestRoad_winner_none gs v h0 vs t0 hvr hst hnil
                  hch kw hwidx
                have hflagkw : holdsLongestRoad
                    (VictoryManager.updateLongestRoad gs) kw = true := by
                  rw [hU, holdsLongestRoad_set]
                  obtain ⟨q, hq, hqf, -⟩ := awardAt_flag_self gs.players kw pw hpw
                  rw [hq]
                  exact hqf
                have hflago : ∀ k, k ≠ kw →
                    holdsLongestRoad (VictoryManager.updateLongestRoad gs) k = false := by
                  intro k hkne
                  rw [hU, holdsLongestRoad_set, awardAt_get?_ne _ _ _ hkne]
                  cases hk : gs.players.get? k with
                  | none => rfl
                  | some q => exact hnof q (List.get?_mem hk)
                refine ⟨?_, ?_, ?_⟩
                · intro k hkf
                  by_cases hkkw : k = kw
                  · subst hkkw
                    rw [hlenkw]
                    exact h05
                  · rw [hflago k hkkw] at hkf
                    cases hkf
                · intro i h5i hstrict
                  have hkwi := hBseat i h5i hstrict
                  subst hkwi
                  exact ⟨hflagkw, fun k hk => hflago k hk⟩
                · intro hex
                  exact (hCfalse hex).elim
            | some holder =>
                have hhf : holder.specialCards.longestRoad = true := by
                  have h2 := List.find?_some hch
                  simpa using h2
                have hhmem : holder ∈ gs.players := List.mem_of_find?_eq_some hch
                obtain ⟨c, hc⟩ := List.mem_iff_get?.mp hhmem
                have huniqf : ∀ k q, gs.players.get? k = some q →
                    q.specialCards.longestRoad = true → k = c := by
                  intro k q hk hqf
                  exact hone k c q holder hk hc hqf hhf
                by_cases hne : holder.id = h0.1
                · have hU := updateLongestRoad_winner_keep gs v h0 vs t0 holder hvr
                    hst hnil hch hne
                  have hckw : c = kw :=
                    seat_of_id_unique hids hc hpw (hne.trans hpwid.symm)
                  have hflagkw : holdsLongestRoad
                      (VictoryManager.updateLongestRoad gs) kw = true := by
                    rw [hU, ← hckw]
                    unfold holdsLongestRoad
                    rw [hc]
                    exact hhf
                  have hflago : ∀ k, k ≠ kw →
                      holdsLongestRoad (VictoryManager.updateLongestRoad gs) k = false := by
                    intro k hkne
                    rw [hU]
                    unfold holdsLongestRoad
                    cases hk : gs.players.get? k with
                    | none => rfl
                    | some q =>
                        by_cases hqf : q.specialCards.longestRoad = true
                        · exact absurd ((huniqf k q hk hqf).trans hckw) hkne
                        · simpa using hqf
                  refine ⟨?_, ?_, ?_⟩
                  · intro k hkf
                    by_cases hkkw : k = kw
                    · subst hkkw
                      rw [hlenkw]
                      exact h05
                    · rw [hflago k hkkw] at hkf
                      cases hkf
                  · intro i h5i hstrict
                    have hkwi := hBseat i h5i hstrict
                    subst hkwi
                    exact ⟨hflagkw, fun k hk => hflago k hk⟩
                  · intro hex
                    exact (hCfalse hex).elim
                · have hcnekw : c ≠ kw := by
                    intro hEq
                    rw [hEq, hpw] at hc
                    have h2 : holder = pw := (Option.some.inj hc).symm
                    exact hne (by rw [h2, hpwid])
                  have hcidx : gs.players.findIdx? (fun p => p.id = holder.id) =
                      some c := findIdx?_players_id hids hc rfl
                  have hclnd : ((VictoryManager.clearLongestRoadAt gs.players c).map
                      (fun q => q.id)).Nodup := by
                    rw [clearAt_map_id]
                    exact hids
                  have hclkw : (VictoryManager.clearLongestRoadAt gs.players c).get? kw =
                      some pw := by
                    rw [clearAt_get?_ne _ _ _ (fun h2 => hcnekw h2.symm)]
                    exact hpw
                  have hwidx : (VictoryManager.clearLongestRoadAt gs.players c).findIdx?
                      (fun p => p.id = h0.1) = some kw :=
                    findIdx?_players_id hclnd hclkw hpwid.symm
                  have hU := updateLongestRoad_winner_take gs v h0 vs t0 holder hvr hst
                    hnil hch hne c kw hcidx hwidx
                  have hflagkw : holdsLongestRoad
                      (VictoryManager.updateLongestRoad gs) kw = true := by
                    rw [hU, holdsLongestRoad_set]
                    obtain ⟨q, hq, hqf, -⟩ := awardAt_flag_self _ kw pw hclkw
                    rw [hq]
                    exact hqf
                  have hflago : ∀ k, k ≠ kw →
                      holdsLongestRoad (VictoryManager.updateLongestRoad gs) k = false := by
                    intro k hkne
                    rw [hU, holdsLongestRoad_set, awardAt_get?_ne _ _ _ hkne]
                    by_cases hkc : k = c
                    · subst hkc
                      obtain ⟨q, hq, hqf, -⟩ := clearAt_flag_self gs.players k holder hc
                      rw [hq]
                      exact hqf
                    · rw [clearAt_get?_ne _ _ _ hkc]
                      cases hk : gs.players.get? k with
                      | none => rfl
                      | some q =>
                          by_cases hqf : q.specialCards.longestRoad = true
                          · exact absurd (huniqf k q hk hqf) hkc
                          · simpa using hqf
                  refine ⟨?_, ?_, ?_⟩
                  · intro k hkf
                    by_cases hkkw : k = kw
                    · subst hkkw
                      rw [hlenkw]
                      exact h05
                    · rw [hflago k hkkw] at hkf
                      cases hkf
                  · intro i h5i hstrict
                    have hkwi := hBseat i h5i hstrict
                    subst hkwi
                    exact ⟨hflagkw, fun k hk => hflago k hk⟩
                  · intro hex
                    exact (hCfalse hex).elim
          · have hcons : (h0 :: t0).filter (fun road => road.2 = h0.2) =
                h0 :: t0.filter (fun road => road.2 = h0.2) :=
              List.filter_cons_of_pos (by simp)
            obtain ⟨z, zs, hzs⟩ : ∃ z zs,
                t0.filter (fun road => road.2 = h0.2) = z :: zs := by
              cases hz : t0.filter (fun road => road.2 = h0.2) with
              | nil =>
                  exfalso
                  apply hlen
                  rw [hcons, hz]
                  rfl
              | cons z zs => exact ⟨z, zs, rfl⟩
            have hzmem : z ∈ (h0 :: t0).filter (fun road => road.2 = h0.2) := by
              rw [hcons, hzs]
              exact List.mem_cons_of_mem _ (List.mem_cons_self z zs)
            have hzmemVR : z ∈ (v :: vs).filter (fun road => road.2 = h0.2) :=
              htiedperm.mem_iff.mp hzmem
            have hzVR : z ∈ v :: vs := (List.mem_filter.mp hzmemVR).1
            have hz2 : z.2 = h0.2 := by
              have h2 := (List.mem_filter.mp hzmemVR).2
              simpa using h2
            have htfstnd : (((v :: vs).filter (fun road => road.2 = h0.2)).map
                (fun road => road.1)).Nodup := by
              have hsub : ((v :: vs).filter (fun road => road.2 = h0.2)).Sublist
                  (v :: vs) := List.filter_sublist _
              exact hVRfstnodup.sublist (hsub.map _)
            have hfstne : h0.1 ≠ z.1 := by
              have hnd2 : (((h0 :: t0).filter (fun road => road.2 = h0.2)).map
                  (fun road => road.1)).Nodup :=
                ((htiedperm.map (fun road => road.1)).nodup_iff).mpr htfstnd
              rw [hcons, hzs] at hnd2
              simp only [List.map_cons, List.nodup_cons] at hnd2
              intro hEq
              exact hnd2.1 (by rw [hEq]; exact List.mem_cons_self _ _)
            obtain ⟨kz, qz, hkz, hqzid, hqzlen⟩ := hseatVR z hzVR
            have hkzkw : kz ≠ kw := by
              intro hEq
              rw [hEq, hpw] at hkz
              have h2 : qz = pw := (Option.some.inj hkz).symm
              apply hfstne
              rw [← hpwid, ← h2]
              exact hqzid
            have hlenkz : roadLengthAt gs kz = h0.2 := by
              rw [hlenAt kz qz hkz, hqzlen, hz2]
            have hkzlt : kz < gs.players.length := by
              cases hg : gs.players.get? kz with
              | none => rw [hg] at hkz; cases hkz
              | some a => exact (List.get?_eq_some.mp hkz).1
            have hBfalse : ∀ i, 5 ≤ roadLengthAt gs i →
                ¬ (∀ j, j < gs.players.length → j ≠ i →
                    roadLengthAt gs j < roadLengthAt gs i) := by
              intro i h5i hstrict
              obtain ⟨p_i, hp_i⟩ := hlen5some i h5i
              have hlei : roadLengthAt gs i ≤ h0.2 := by
                rw [hlenAt i p_i hp_i]
                exact hle_h0 i p_i hp_i
              by_cases hkwi : kw = i
              · have h2 := hstrict kz hkzlt (by rw [← hkwi]; exact hkzkw)
                rw [hlenkz] at h2
                omega
              · have h2 := hstrict kw hkwlt hkwi
                rw [hlenkw] at h2
                omega
            cases hch : gs.players.find? (fun p => p.specialCards.longestRoad) with
            | none =>
                have hnof : ∀ q ∈ gs.players, q.specialCards.longestRoad = false := by
                  intro q hq
                  have h2 := List.find?_eq_none.mp hch q hq
                  simpa using h2
                have hU := updateLongestRoad_tie_none gs v h0 vs t0 hvr hst hlen hch
                have hflagall : ∀ k, holdsLongestRoad gs k = false := by
                  intro k
                  unfold holdsLongestRoad
                  cases hk : gs.players.get? k with
                  | none => rfl
                  | some q => exact hnof q (List.get?_mem hk)
                refine ⟨?_, ?_, ?_⟩
                · intro k hkf
                  rw [hU, hflagall k] at hkf
                  cases hkf
                · intro i h5i hstrict
                  exact absurd hstrict (hBfalse i h5i)
                · intro _ k
                  rw [hU, hflagall k]
                  rfl
            | some holder =>
                have hhf : holder.specialCards.longestRoad = true := by
                  have h2 := List.find?_some hch
                  simpa using h2
                have hhmem : holder ∈ gs.players := List.mem_of_find?_eq_some hch
                obtain ⟨c, hc⟩ := List.mem_iff_get?.mp hhmem
                have huniqf : ∀ k q, gs.players.get? k = some q →
                    q.specialCards.longestRoad = true → k = c := by
                  intro k q hk hqf
                  exact hone k c q holder hk hc hqf hhf
                have hflagc : holdsLongestRoad gs c = true := by
                  unfold holdsLongestRoad
                  rw [hc]
                  exact hhf
                have hflagnc : ∀ k, k ≠ c → holdsLongestRoad gs k = false := by
                  intro k hkc
                  unfold holdsLongestRoad
                  cases hk : gs.players.get? k with
                  | none => rfl
                  | some q =>
                      by_cases hqf : q.specialCards.longestRoad = true
                      · exact absurd (huniqf k q hk hqf) hkc
                      · simpa using hqf
                by_cases hany : ((h0 :: t0).filter (fun road => road.2 = h0.2)).any
                    (fun road => road.1 = holder.id) = true
                · obtain ⟨y, hymem, hyp⟩ := List.any_eq_true.mp hany
                  have hyid : y.1 = holder.id := by simpa using hyp
                  have hyVR : y ∈ v :: vs :=
                    (List.mem_filter.mp (htiedperm.mem_iff.mp hymem)).1
                  have hy2 : y.2 = h0.2 := by
                    have h2 := (List.mem_filter.mp (htiedperm.mem_iff.mp hymem)).2
                    simpa using h2
                  obtain ⟨ky, qy, hky, hqyid, hqylen⟩ := hseatVR y hyVR
                  have hkyc : ky = c :=
                    seat_of_id_unique hids hky hc (hqyid.trans hyid)
                  have hlenc : roadLengthAt gs c = h0.2 := by
                    rw [← hkyc, hlenAt ky qy hky, hqylen, hy2]
                  have hU := updateLongestRoad_tie_keep gs v h0 vs t0 holder hvr hst
                    hlen hch hany
                  refine ⟨?_, ?_, ?_⟩
                  · intro k hkf
                    rw [hU] at hkf
                    by_cases hkc : k = c
                    · subst hkc
                      rw [hlenc]
                      exact h05
                    · rw [hflagnc k hkc] at hkf
                      cases hkf
                  · intro i h5i hstrict
                    exact absurd hstrict (hBfalse i h5i)
                  · intro _ k
                    rw [hU]
                    by_cases hkc : k = c
                    · subst hkc
                      rw [hflagc, hlenc, hmaxeq]
                      simp
                    · rw [hflagnc k hkc]
                      rfl
                · have hanyf : ((h0 :: t0).filter (fun road => road.2 = h0.2)).any
                      (fun road => road.1 = holder.id) = false :=
                    Bool.eq_false_iff.mpr hany
                  have hcidx : gs.players.findIdx? (fun p => p.id = holder.id) =
                      some c := findIdx?_players_id hids hc rfl
                  have hU := updateLongestRoad_tie_strip gs v h0 vs t0 holder hvr hst
                    hlen hch hanyf c hcidx
                  have hlencne : roadLengthAt gs c ≠ h0.2 := by
                    intro hEq
                    have h5c : 5 ≤ VictoryManager.calculateLongestRoadLength gs
                        holder.id := by
                      rw [← hlenAt c holder hc, hEq]
                      exact h05
                    have hmemVR := hVRmem c holder hc h5c
                    have hmemT : (holder.id,
                        VictoryManager.calculateLongestRoadLength gs holder.id) ∈
                        (v :: vs).filter (fun road => road.2 = h0.2) :=
                      List.mem_filter.mpr ⟨hmemVR, by
                        simp only [decide_eq_true_eq]
                        rw [← hlenAt c holder hc]
                        exact hEq⟩
                    have hmemT2 := htiedperm.mem_iff.mpr hmemT
                    have hanyt : ((h0 :: t0).filter (fun road => road.2 = h0.2)).any
                        (fun road => road.1 = holder.id) = true :=
                      List.any_eq_true.mpr ⟨_, hmemT2, by simp⟩
                    rw [hanyf] at hanyt
                    cases hanyt
                  refine ⟨?_, ?_, ?_⟩
                  · intro k hkf
                    rw [hU, holdsLongestRoad_set] at hkf
                    by_cases hkc : k = c
                    · subst hkc
                      obtain ⟨q, hq, hqf, -⟩ := clearAt_flag_self gs.players k holder hc
                      rw [hq] at hkf
                      have h2 : q.specialCards.longestRoad = true := hkf
                      rw [hqf] at h2
                      cases h2
                    · rw [clearAt_get?_ne _ _ _ hkc] at hkf
                      have h2 : holdsLongestRoad gs k = true := hkf
                      rw [hflagnc k hkc] at h2
                      cases h2
                  · intro i h5i hstrict
                    exact absurd hstrict (hBfalse i h5i)
                  · intro _ k
                    rw [hU, holdsLongestRoad_set]
                    by_cases hkc : k = c
                    · subst hkc
                      obtain ⟨q, hq, hqf, -⟩ := clearAt_flag_self gs.players k holder hc
                      rw [hq]
                      simp only [Option.map_some', Option.getD_some]
                      rw [hqf, hflagc, hmaxeq, decide_eq_false hlencne]
                      rfl
                    · rw [clearAt_get?_ne _ _ _ hkc]
                      have h2 : holdsLongestRoad gs k = false := hflagnc k hkc
                      unfold holdsLongestRoad at h2
                      rw [h2, hflagnc k hkc]
                      rfl

/-- Witness for C8 at a concrete input: in a fresh two-player game where
player 1 owns a five-edge connected chain and player 2 owns no roads, the
update awards player 1 the longest-road bonus. -/
theorem claimC8_witness :
    holdsLongestRoad (VictoryManager.updateLongestRoad roadFiveState) 0 = true :=
  ((claimC8_longest_road_award_rules roadFiveState (by decide)
      (by
        intro i j pi pj hi hj h1 h2
        have hall : ∀ q ∈ roadFiveState.players,
            q.specialCards.longestRoad = false := by decide
        rw [hall pi (List.get?_mem hi)] at h1
        cases h1)).2.1 0 (by decide) (by decide)).1
